import Mathlib

/-!
Shallow embedding of the HitsterWebApp core (src/app.py): round lifecycle,
guess submission, scoring, standings, snapshots and rank deltas, plus the
auto-round scheduler.  Python strings are modelled as Lean `String` with
hand-rolled character-level helpers mirroring `str.strip`, `str.lower`,
`str.casefold` (modelled as ASCII-extended `Char.toLower`, which agrees with
SQLite's NOCASE folding on ASCII), and `re.sub(r"\s+", " ", s)`.  Machine
time is modelled as `Nat`; the ISO timestamp round-trips of the source
(`utc_now_iso` / `parse_iso_dt`) are modelled as the identity on `Option Nat`.
SQLite tables are lists kept in rowid (insertion) order; the AUTOINCREMENT
counters are explicit fields.
-/

namespace HitsterApp

/-! ## Text helpers (app.py `normalize_text` and friends) -/

/-- Python whitespace characters recognised by `str.strip()` and `\s`. -/
def isPyWs (c : Char) : Bool :=
  c = ' ' ∨ c = '\t' ∨ c = '\n' ∨ c = '\r' ∨ c = '\x0b' ∨ c = '\x0c'

/-- Character-list version of Python `str.strip()`. -/
def stripL (l : List Char) : List Char :=
  ((l.dropWhile isPyWs).reverse.dropWhile isPyWs).reverse

/-- Replace every maximal run of whitespace by a single space, as
`re.sub(r"\s+", " ", s)` does.  The flag records whether the previous
character was part of a whitespace run. -/
def collapseGo : Bool → List Char → List Char
  | _, [] => []
  | prevWs, c :: rest =>
    if isPyWs c then
      if prevWs then collapseGo true rest else ' ' :: collapseGo true rest
    else c :: collapseGo false rest

/-- Python `str.strip()` on `String`. -/
def pyStrip (s : String) : String := String.mk (stripL s.data)

/-- Python `str.lower()` (and `str.casefold()` restricted to the characters
this application compares) modelled as per-character `Char.toLower`. -/
def pyLower (s : String) : String := String.mk (s.data.map Char.toLower)

/-- app.py `normalize_text`: falsy input gives `""`; otherwise strip,
collapse internal whitespace, case-fold. -/
def normalize_text (s : Option String) : String :=
  match s with
  | none => ""
  | some str =>
    if str = "" then ""
    else String.mk ((collapseGo false (stripL str.data)).map Char.toLower)

/-- Python `int(s)` on a decimal literal with optional sign and surrounding
whitespace; `none` models a raised `ValueError`. -/
def parse_int (s : String) : Option Int :=
  let core : List Char → Option Nat := fun ds =>
    if ds.isEmpty then none
    else if ds.all Char.isDigit then
      some (ds.foldl (fun acc c => acc * 10 + (c.toNat - 48)) 0)
    else none
  match stripL s.data with
  | '-' :: rest => (core rest).map (fun n => -(n : Int))
  | '+' :: rest => (core rest).map (fun n => (n : Int))
  | l => (core l).map (fun n => (n : Int))

/-- Decimal rendering of a `Nat`, as Python `str(n)`; fuel-based so that it
computes by kernel reduction. -/
def natToStrGo : Nat → Nat → List Char → List Char
  | 0, n, acc => Char.ofNat (48 + n % 10) :: acc
  | fuel + 1, n, acc =>
    let d := Char.ofNat (48 + n % 10)
    if n < 10 then d :: acc else natToStrGo fuel (n / 10) (d :: acc)

/-- Python `str(n)` for `n : Nat`. -/
def natToStr (n : Nat) : String := String.mk (natToStrGo n n [])

/-- Case-insensitive comparison key used to model SQLite's `COLLATE NOCASE`
(ASCII case folding). -/
def nocaseKey (s : String) : List Char := s.data.map Char.toLower

/-- Lexicographic order on character lists by code point, modelling the
ordering SQLite uses for `ORDER BY name COLLATE NOCASE ASC` once both sides
are case-folded. -/
def lexLe : List Char → List Char → Bool
  | [], _ => true
  | _ :: _, [] => false
  | a :: as, b :: bs => if a.toNat = b.toNat then lexLe as bs else decide (a.toNat < b.toNat)

/-- Suffix test on strings (Python `str.endswith`). -/
def pfxOf : List Char → List Char → Bool
  | [], _ => true
  | _ :: _, [] => false
  | a :: as, b :: bs => a = b && pfxOf as bs

/-- Python `s.endswith(t)`. -/
def strEndsWith (s t : String) : Bool := pfxOf t.data.reverse s.data.reverse

/-! ## Scoring (app.py `score_year`, `score_song_artist`) -/

/-- app.py `score_year(diff, difficulty)` where `diff = abs(guess - correct)`. -/
def score_year (diff : Nat) (difficulty : String) : Int :=
  if difficulty = "easy" then
    if diff = 0 then 5
    else if diff = 1 then 4
    else if diff = 2 then 3
    else if 3 ≤ diff ∧ diff ≤ 5 then 2
    else if 6 ≤ diff ∧ diff ≤ 10 then 1
    else 0
  else if difficulty = "hard" then
    if diff = 0 then 10
    else if diff = 1 then 8
    else if diff = 2 then 6
    else if 3 ≤ diff ∧ diff ≤ 5 then 4
    else if 6 ≤ diff ∧ diff ≤ 10 then 2
    else -4
  else if difficulty = "extreme" then
    if diff = 0 then 10
    else if diff > 10 then -5
    else 0
  else 0

/-- Python truthiness of an `Optional[str]`: `None` and `""` are falsy. -/
def pyFalsy : Option String → Bool
  | none => true
  | some s => s = ""

/-- app.py `score_song_artist(guess, correct)`. -/
def score_song_artist (guess correct : Option String) : Int :=
  if pyFalsy correct then 0
  else if normalize_text guess = normalize_text correct then 5 else 0

/-! ## Data model (app.py `init_db` schema) -/

/-- Round status values: the schema constrains `status` to `open`/`closed`. -/
inductive RoundStatus where
  | Open
  | Closed
deriving DecidableEq, Repr

/-- Row of the `players` table. -/
structure Player where
  id : Nat
  name : String
  created_at : Nat
deriving DecidableEq, Repr

/-- Row of the `rounds` table. -/
structure Round where
  id : Nat
  question : Option String
  status : RoundStatus
  correct_song : Option String
  correct_artist : Option String
  correct_year : Option Int
  created_at : Nat
  closed_at : Option Nat
deriving DecidableEq, Repr

/-- Row of the `guesses` table. -/
structure Guess where
  round_id : Nat
  player_id : Nat
  guess_song : Option String
  guess_artist : Option String
  guess_year : Option Int
  points_year : Int
  points_song : Int
  points_artist : Int
  total_points : Int
  created_at : Nat
  updated_at : Nat
deriving DecidableEq, Repr

/-- Row of the `standings_history` table. -/
structure SnapRow where
  round_id : Nat
  player_id : Nat
  rank : Nat
  points : Int
  created_at : Nat
deriving DecidableEq, Repr

/-- The `settings` table after `init_db` always holds these six keys; the
value of `next_round_at` is modelled through `parse_iso_dt`: `none` stands
for the empty or unparsable string. -/
structure Settings where
  difficulty : String
  game_status : String
  ended_at : Option Nat
  auto_rounds : String
  next_round_at : Option Nat
  questionPfx : String
deriving DecidableEq, Repr

/-- Whole-database state.  Lists are kept in rowid order, so the row with
the greatest `id` is last; `next_round_id` / `next_player_id` model the
AUTOINCREMENT counters. -/
structure DBState where
  players : List Player
  rounds : List Round
  guesses : List Guess
  history : List SnapRow
  settings : Settings
  next_round_id : Nat
  next_player_id : Nat
deriving DecidableEq, Repr

/-- Database state right after `init_db` on a fresh file. -/
def initState : DBState :=
  { players := [], rounds := [], guesses := [], history := []
    settings :=
      { difficulty := "easy", game_status := "running", ended_at := none
        auto_rounds := "0", next_round_at := none, questionPfx := "Song #" }
    next_round_id := 1, next_player_id := 1 }

/-! ## Settings helpers -/

/-- app.py `game_status()`: normalise and default to `running`. -/
def game_status_val (st : DBState) : String :=
  let s := pyLower (pyStrip st.settings.game_status)
  if s = "running" ∨ s = "ended" then s else "running"

/-- app.py `is_game_ended()`. -/
def is_game_ended (st : DBState) : Bool := game_status_val st = "ended"

/-- app.py `auto_rounds_enabled()`. -/
def auto_rounds_enabled (st : DBState) : Bool := st.settings.auto_rounds = "1"

/-- app.py `difficulty_locked()`: true once any round row exists. -/
def difficulty_locked (st : DBState) : Bool := decide (0 < st.rounds.length)

/-! ## Round queries -/

/-- Status test used by the `status='open'` SQL filters. -/
def isOpenR (r : Round) : Bool := r.status = RoundStatus.Open

/-- All open rounds, in rowid order. -/
def openRounds (st : DBState) : List Round := st.rounds.filter isOpenR

/-- `SELECT * FROM rounds WHERE status='open' ORDER BY id DESC LIMIT 1`. -/
def openRoundRow (st : DBState) : Option Round := (openRounds st).getLast?

/-- All closed rounds, in rowid order. -/
def closedRounds (st : DBState) : List Round :=
  st.rounds.filter (fun r => r.status = RoundStatus.Closed)

/-- `SELECT * FROM rounds WHERE status='closed' ORDER BY id DESC LIMIT 1`
(app.py `get_last_closed_round`). -/
def lastClosedRow (st : DBState) : Option Round := (closedRounds st).getLast?

/-- `SELECT * FROM rounds WHERE id=?` (primary-key lookup). -/
def findRound (st : DBState) (rid : Nat) : Option Round :=
  st.rounds.find? (fun r => r.id = rid)

/-! ## Auto-round scheduler (app.py `auto_open_round_if_due`, `get_open_round`) -/

/-- app.py `_make_auto_question`. -/
def make_auto_question (st : DBState) : String :=
  let p := pyStrip (if st.settings.questionPfx = "" then "Song #" else st.settings.questionPfx)
  let n := st.rounds.length + 1
  if strEndsWith p "#" then p ++ natToStr n
  else if strEndsWith p "# " then p ++ natToStr n
  else if strEndsWith p " " then p ++ natToStr n
  else p ++ " " ++ natToStr n

/-- The round row inserted by the scheduler. -/
def newAutoRound (now : Nat) (st : DBState) : Round :=
  { id := st.next_round_id, question := some (make_auto_question st)
    status := RoundStatus.Open, correct_song := none, correct_artist := none
    correct_year := none, created_at := now, closed_at := none }

/-- app.py `auto_open_round_if_due`: early-return checks, then the
re-validation inside `BEGIN IMMEDIATE`, then insert plus clearing of
`next_round_at`.  Every abort path leaves the state unchanged. -/
def auto_open_round_if_due (now : Nat) (st : DBState) : DBState :=
  if is_game_ended st ∨ ¬ auto_rounds_enabled st then st
  else
    match st.settings.next_round_at with
    | none => st
    | some due =>
      if now < due then st
      else
        if ¬ (openRounds st).isEmpty then st
        else if st.settings.game_status ≠ "running" ∨ st.settings.auto_rounds ≠ "1" then st
        else
          match st.settings.next_round_at with
          | none => st
          | some due2 =>
            if now < due2 then st
            else
              { st with
                rounds := st.rounds ++ [newAutoRound now st]
                next_round_id := st.next_round_id + 1
                settings := { st.settings with next_round_at := none } }

/-- app.py `get_open_round`: read, trigger the scheduler when no open round
exists, read again. -/
def get_open_round (now : Nat) (st : DBState) : DBState × Option Round :=
  match openRoundRow st with
  | some r => (st, some r)
  | none =>
    let st1 := auto_open_round_if_due now st
    (st1, openRoundRow st1)

/-! ## Round scoring (app.py `compute_and_store_round_scores`) -/

/-- The per-row update performed by `compute_and_store_round_scores` for a
guess of the round being scored.  `cs`/`ca` are the correct song/artist with
SQL `NULL` already replaced by `""` (the `or ""` in the source). -/
def scoreGuess (difficulty : String) (cy : Option Int) (cs ca : String) (now : Nat)
    (g : Guess) : Guess :=
  let py : Int :=
    match cy, g.guess_year with
    | some c, some y => score_year (y - c).natAbs difficulty
    | _, _ => 0
  let ps := score_song_artist g.guess_song (some cs)
  let pa := score_song_artist g.guess_artist (some ca)
  { g with points_year := py, points_song := ps, points_artist := pa
           total_points := py + ps + pa, updated_at := now }

/-- app.py `compute_and_store_round_scores(round_id)`. -/
def compute_and_store_round_scores (now rid : Nat) (st : DBState) : DBState :=
  match findRound st rid with
  | none => st
  | some rnd =>
    let difficulty := st.settings.difficulty
    let cy := rnd.correct_year
    let cs := rnd.correct_song.getD ""
    let ca := rnd.correct_artist.getD ""
    { st with guesses := st.guesses.map (fun g =>
        if g.round_id = rid then scoreGuess difficulty cy cs ca now g else g) }

/-! ## Standings (app.py `compute_standings`) -/

/-- One output row of `compute_standings`. -/
structure StandingRow where
  player_id : Nat
  player : String
  points : Int
deriving DecidableEq, Repr

/-- `COALESCE(SUM(g.total_points), 0)` for one player over all guess rows,
exactly as the SQL of `compute_standings` (which has no round filter). -/
def playerPoints (st : DBState) (pid : Nat) : Int :=
  ((st.guesses.filter (fun g => g.player_id = pid)).map Guess.total_points).sum

/-- Boolean sort key of `ORDER BY points DESC, name COLLATE NOCASE ASC`. -/
def standingsLE (a b : StandingRow) : Bool :=
  if a.points = b.points then lexLe (nocaseKey a.player) (nocaseKey b.player)
  else decide (b.points < a.points)

/-- The ordering relation induced by `standingsLE`. -/
def standingsOrder (a b : StandingRow) : Prop := standingsLE a b = true

instance : DecidableRel standingsOrder := fun a b => by
  unfold standingsOrder
  infer_instance

/-- app.py `compute_standings`: one aggregated row per player, ordered by
points descending then name case-insensitively ascending. -/
def compute_standings (st : DBState) : List StandingRow :=
  List.insertionSort standingsOrder
    (st.players.map (fun p => StandingRow.mk p.id p.name (playerPoints st p.id)))

/-! ## Standings snapshots and rank deltas -/

/-- `INSERT ... ON CONFLICT(round_id, player_id) DO UPDATE` on
`standings_history`. -/
def upsertSnap (h : List SnapRow) (row : SnapRow) : List SnapRow :=
  if h.any (fun r => r.round_id = row.round_id ∧ r.player_id = row.player_id) then
    h.map (fun r =>
      if r.round_id = row.round_id ∧ r.player_id = row.player_id then
        { r with rank := row.rank, points := row.points, created_at := row.created_at }
      else r)
  else h ++ [row]

/-- app.py `save_standings_snapshot`: one history row per standings entry,
with `rank` equal to the 1-based position produced by
`enumerate(standings, start=1)`. -/
def save_standings_snapshot (now rid : Nat) (st : DBState) : DBState :=
  { st with history :=
      ((List.enumFrom 1 (compute_standings st)).foldl
        (fun h is => upsertSnap h (SnapRow.mk rid is.2.player_id is.1 is.2.points now))
        st.history) }

/-- app.py `get_rank_delta_for_latest`, as an association list in the
iteration order of the latest snapshot. -/
def get_rank_delta_for_latest (st : DBState) : List (Nat × Int) :=
  match lastClosedRow st with
  | none => []
  | some last =>
    let lastRows := st.history.filter (fun r => r.round_id = last.id)
    match (st.rounds.filter (fun r => r.status = RoundStatus.Closed ∧ r.id < last.id)).getLast? with
    | none => lastRows.map (fun r => (r.player_id, (0 : Int)))
    | some prev =>
      let prevRows := st.history.filter (fun r => r.round_id = prev.id)
      lastRows.map (fun r =>
        let pr : Nat :=
          match prevRows.find? (fun q => q.player_id = r.player_id) with
          | some q => q.rank
          | none => r.rank
        (r.player_id, Int.ofNat pr - Int.ofNat r.rank))

/-- `delta_map.get(pid, 0)`. -/
def deltaLookup (dm : List (Nat × Int)) (pid : Nat) : Int :=
  ((dm.find? (fun x => x.1 = pid)).map Prod.snd).getD 0

/-- One row of the `/api/standings` response. -/
structure ApiStandingRow where
  rank : Nat
  player : String
  points : Int
  delta : Int
deriving DecidableEq, Repr

/-- app.py `api_standings`: ranks are again the 1-based enumeration
positions of the standings order. -/
def api_standings (st : DBState) : List ApiStandingRow :=
  let dm := get_rank_delta_for_latest st
  (List.enumFrom 1 (compute_standings st)).map (fun is =>
    ApiStandingRow.mk is.1 is.2.player is.2.points (deltaLookup dm is.2.player_id))

/-! ## Registration (app.py `register`) -/

/-- app.py `register` POST handler: empty name is an error; otherwise look
up `WHERE name=? COLLATE NOCASE` and reuse the id, or insert a fresh row.
The returned value is the player id placed in the session, `none` on the
validation error. -/
def register (name_raw : String) (now : Nat) (st : DBState) : DBState × Option Nat :=
  let name := pyStrip name_raw
  if name = "" then (st, none)
  else
    match st.players.find? (fun p => nocaseKey p.name = nocaseKey name) with
    | some p => (st, some p.id)
    | none =>
      ({ st with players := st.players ++ [Player.mk st.next_player_id name now]
                 next_player_id := st.next_player_id + 1 },
       some st.next_player_id)

/-! ## Guess submission (app.py `submit`) -/

/-- Outcome of the `/submit` handler, mirroring its redirect targets. -/
inductive SubmitResult where
  | needsRegister
  | gameEnded
  | noOpenRound
  | roundChanged
  | enterOne
  | ok
deriving DecidableEq, Repr

/-- Key test of the `(round_id, player_id)` uniqueness constraint. -/
def guessKeyMatches (rid pid : Nat) (g : Guess) : Bool :=
  g.round_id = rid ∧ g.player_id = pid

/-- `INSERT ... ON CONFLICT(round_id, player_id) DO UPDATE` on `guesses`:
overwrite the three guess fields and `updated_at`, leave the points and
`created_at` alone; insert a fresh zero-points row otherwise. -/
def upsertGuess (gs : List Guess) (rid pid : Nat) (song artist : Option String)
    (year : Option Int) (now : Nat) : List Guess :=
  if gs.any (guessKeyMatches rid pid) then
    gs.map (fun g =>
      if guessKeyMatches rid pid g then
        { g with guess_song := song, guess_artist := artist, guess_year := year
                 updated_at := now }
      else g)
  else gs ++ [Guess.mk rid pid song artist year 0 0 0 0 now now]

/-- app.py `submit`: session check, game-ended check, open-round and stale
round-id checks, the "at least one field" validation on the RAW trimmed
strings, then the upsert. -/
def submit (pid : Nat) (posted_round_id song artist year_raw : String) (now : Nat)
    (st : DBState) : DBState × SubmitResult :=
  if (st.players.find? (fun p => p.id = pid)).isNone then (st, SubmitResult.needsRegister)
  else if is_game_ended st then (st, SubmitResult.gameEnded)
  else
    let r := get_open_round now st
    match r.2 with
    | none => (r.1, SubmitResult.noOpenRound)
    | some oround =>
      let posted := pyStrip posted_round_id
      if posted = "" ∨ natToStr oround.id ≠ posted then (r.1, SubmitResult.roundChanged)
      else
        let gsong := pyStrip song
        let gartist := pyStrip artist
        let gyearRaw := pyStrip year_raw
        let gyear : Option Int := if gyearRaw = "" then none else parse_int gyearRaw
        if gsong = "" ∧ gartist = "" ∧ gyearRaw = "" then (r.1, SubmitResult.enterOne)
        else
          ({ r.1 with guesses :=
              (upsertGuess r.1.guesses oround.id pid
                (if gsong = "" then none else some gsong)
                (if gartist = "" then none else some gartist)
                gyear now) },
           SubmitResult.ok)

/-! ## Admin actions (app.py `admin` POST handler) -/

/-- The `admin` view ends every request with `auto_open_round_if_due()`
followed by `get_open_round()` (whose read side effect can trigger the same
attempt again). -/
def adminTail (now : Nat) (st : DBState) : DBState :=
  (get_open_round now (auto_open_round_if_due now st)).1

/-- Admin `set_difficulty` action.  Returns the error message when the
difficulty is locked (the `ConflictError` of the specification). -/
def admin_set_difficulty (d_raw : String) (now : Nat) (st : DBState) :
    DBState × Option String :=
  if difficulty_locked st then
    (adminTail now st, some "Difficulty is locked after the first round is created.")
  else
    let d1 := pyLower (pyStrip (if d_raw = "" then "easy" else d_raw))
    let d := if d1 = "easy" ∨ d1 = "hard" ∨ d1 = "extreme" then d1 else "easy"
    (adminTail now { st with settings := { st.settings with difficulty := d } }, none)

/-- Admin `set_prefix` action. -/
def admin_set_qpfx (p_raw : String) (now : Nat) (st : DBState) : DBState :=
  let p0 := pyStrip (if p_raw = "" then "Song #" else p_raw)
  let p := if p0 = "" then "Song #" else p0
  adminTail now { st with settings := { st.settings with questionPfx := p } }

/-- Admin `start_game` action: resume when ended, enable auto rounds, and
when no open round exists schedule one for right now and trigger the
scheduler immediately. -/
def admin_start_game (now : Nat) (st : DBState) : DBState :=
  let st1 :=
    if is_game_ended st then
      { st with settings := { st.settings with game_status := "running", ended_at := none } }
    else st
  let st2 := { st1 with settings := { st1.settings with auto_rounds := "1" } }
  let st3 :=
    if (openRounds st2).isEmpty then
      auto_open_round_if_due now
        { st2 with settings := { st2.settings with next_round_at := some now } }
    else st2
  adminTail now st3

/-- Admin `stop_auto` action. -/
def admin_stop_auto (now : Nat) (st : DBState) : DBState :=
  adminTail now
    { st with settings := { st.settings with auto_rounds := "0", next_round_at := none } }

/-- Admin `set_answers` action: only the currently open round is updated
(`WHERE id=? AND status='open'`); an unparsable year is stored as absent. -/
def admin_set_answers (song artist year_raw : String) (now : Nat) (st : DBState) : DBState :=
  if is_game_ended st then adminTail now st
  else
    let r := get_open_round now st
    match r.2 with
    | none => adminTail now r.1
    | some oround =>
      let cs := if pyStrip song = "" then none else some (pyStrip song)
      let ca := if pyStrip artist = "" then none else some (pyStrip artist)
      let cyRaw := pyStrip year_raw
      let cy := if cyRaw = "" then none else parse_int cyRaw
      adminTail now
        { r.1 with rounds :=
            (r.1.rounds.map (fun rr =>
              if rr.id = oround.id ∧ rr.status = RoundStatus.Open then
                { rr with correct_song := cs, correct_artist := ca, correct_year := cy }
              else rr)) }

/-- Shared close sequence: score the round, flip its status to closed with
a timestamp, then persist the standings snapshot. -/
def closeRoundCore (now rid : Nat) (st : DBState) : DBState :=
  let st1 := compute_and_store_round_scores now rid st
  let st2 := { st1 with rounds := st1.rounds.map (fun r =>
      if r.id = rid then { r with status := RoundStatus.Closed, closed_at := some now }
      else r) }
  save_standings_snapshot now rid st2

/-- Admin `close_round` action. -/
def admin_close_round (now : Nat) (st : DBState) : DBState :=
  if is_game_ended st then adminTail now st
  else
    let r := get_open_round now st
    match r.2 with
    | none => adminTail now r.1
    | some oround =>
      let st2 := closeRoundCore now oround.id r.1
      let st3 :=
        if auto_rounds_enabled st2 ∧ game_status_val st2 = "running" then
          { st2 with settings := { st2.settings with next_round_at := some (now + 5) } }
        else st2
      adminTail now st3

/-- Admin `end_game` action: close a raw-queried open round if any, then set
the game ended, record `ended_at`, disable the scheduler. -/
def admin_end_game (now : Nat) (st : DBState) : DBState :=
  if is_game_ended st then adminTail now st
  else
    let st1 :=
      match openRoundRow st with
      | none => st
      | some oround => closeRoundCore now oround.id st
    adminTail now
      { st1 with settings :=
          { st1.settings with
              game_status := "ended"
              ended_at := some now
              auto_rounds := "0"
              next_round_at := none } }

/-- Admin `reset_game` action: clear guesses, snapshots and rounds, restore
the default settings; players (and the AUTOINCREMENT counters) survive. -/
def admin_reset_game (now : Nat) (st : DBState) : DBState :=
  adminTail now
    { st with
        guesses := []
        history := []
        rounds := []
        settings :=
          { difficulty := "easy", game_status := "running", ended_at := none
            auto_rounds := "0", next_round_at := none, questionPfx := "Song #" } }

/-! ## The operation alphabet and reachability -/

/-- Every state-mutating entry point of the application. `opRead` stands
for any GET handler whose `get_open_round` read can trigger the scheduler. -/
inductive Op where
  | opRegister (name : String) (now : Nat)
  | opSubmit (pid : Nat) (posted song artist year_raw : String) (now : Nat)
  | opRead (now : Nat)
  | opSetDifficulty (d : String) (now : Nat)
  | opSetQPfx (p : String) (now : Nat)
  | opStartGame (now : Nat)
  | opStopAuto (now : Nat)
  | opSetAnswers (song artist year_raw : String) (now : Nat)
  | opCloseRound (now : Nat)
  | opEndGame (now : Nat)
  | opResetGame (now : Nat)

/-- State transition of one request. -/
def stepOp : Op → DBState → DBState
  | Op.opRegister n now, st => (register n now st).1
  | Op.opSubmit pid pr s a y now, st => (submit pid pr s a y now st).1
  | Op.opRead now, st => (get_open_round now st).1
  | Op.opSetDifficulty d now, st => (admin_set_difficulty d now st).1
  | Op.opSetQPfx p now, st => admin_set_qpfx p now st
  | Op.opStartGame now, st => admin_start_game now st
  | Op.opStopAuto now, st => admin_stop_auto now st
  | Op.opSetAnswers s a y now, st => admin_set_answers s a y now st
  | Op.opCloseRound now, st => admin_close_round now st
  | Op.opEndGame now, st => admin_end_game now st
  | Op.opResetGame now, st => admin_reset_game now st

/-- States reachable from a fresh database by any request sequence. -/
inductive Reachable : DBState → Prop
  | base : Reachable initState
  | next : ∀ {st : DBState} (op : Op), Reachable st → Reachable (stepOp op st)

/-! ## Characterisation of the scheduler -/

/-- The re-validated precondition under which `auto_open_round_if_due`
actually inserts: no open round, game running, auto rounds enabled, and a
due `next_round_at`. -/
def schedulerDue (now : Nat) (st : DBState) : Prop :=
  (openRounds st).isEmpty = true ∧
  st.settings.game_status = "running" ∧
  st.settings.auto_rounds = "1" ∧
  ∃ due, st.settings.next_round_at = some due ∧ due ≤ now

instance (now : Nat) (st : DBState) : Decidable (schedulerDue now st) := by
  unfold schedulerDue
  cases st.settings.next_round_at <;> · simp; infer_instance

/-- The successful effect of the scheduler: append a fresh open round and
clear `next_round_at`. -/
def insertAutoRound (now : Nat) (st : DBState) : DBState :=
  { st with
      rounds := st.rounds ++ [newAutoRound now st]
      next_round_id := st.next_round_id + 1
      settings := { st.settings with next_round_at := none } }

theorem is_game_ended_of_running (st : DBState)
    (h : st.settings.game_status = "running") : is_game_ended st = false := by
  unfold is_game_ended game_status_val
  rw [h]
  decide

/-- `auto_open_round_if_due` inserts exactly under `schedulerDue` and is the
identity otherwise. -/
theorem auto_open_spec (now : Nat) (st : DBState) :
    (schedulerDue now st → auto_open_round_if_due now st = insertAutoRound now st) ∧
    (¬ schedulerDue now st → auto_open_round_if_due now st = st) := by
  constructor
  · rintro ⟨hopen, hrun, hauto, due, hdue, hle⟩
    unfold auto_open_round_if_due
    rw [is_game_ended_of_running st hrun, hdue]
    simp only [auto_rounds_enabled, hauto, hopen, hrun]
    simp [Nat.not_lt.mpr hle, insertAutoRound]
    exact ⟨hrun.symm, hauto.symm⟩
  · intro hnot
    unfold auto_open_round_if_due
    by_cases hend : is_game_ended st = true
    · simp [hend]
    · simp only [Bool.not_eq_true] at hend
      simp only [hend]
      by_cases hauto : auto_rounds_enabled st = true
      · cases hdue : st.settings.next_round_at with
        | none => simp [hauto]
        | some due =>
          simp only [hauto, hdue]
          by_cases hlt : now < due
          · simp [hlt]
          · by_cases hopen : (openRounds st).isEmpty = true
            · by_cases hrun : st.settings.game_status = "running"
              · exact absurd ⟨hopen, hrun, (by simpa [auto_rounds_enabled] using hauto),
                  due, hdue, Nat.not_lt.mp hlt⟩ hnot
              · simp [hlt, hopen, hrun]
            · simp only [Bool.not_eq_true] at hopen
              simp [hlt, hopen]
      · simp [hauto]

/-- Disjunctive form of `auto_open_spec`. -/
theorem auto_open_cases (now : Nat) (st : DBState) :
    auto_open_round_if_due now st = st ∨
    ((openRounds st).isEmpty = true ∧
      auto_open_round_if_due now st = insertAutoRound now st) := by
  by_cases h : schedulerDue now st
  · exact Or.inr ⟨h.1, (auto_open_spec now st).1 h⟩
  · exact Or.inl ((auto_open_spec now st).2 h)

/-- Same dichotomy for the state component of `get_open_round`. -/
theorem get_open_round_fst_cases (now : Nat) (st : DBState) :
    (get_open_round now st).1 = st ∨
    ((openRounds st).isEmpty = true ∧
      (get_open_round now st).1 = insertAutoRound now st) := by
  unfold get_open_round
  cases h : openRoundRow st with
  | none => simpa using auto_open_cases now st
  | some r => exact Or.inl rfl

/-! ## Reachable-state invariants -/

/-- Round ids stay below the AUTOINCREMENT counter. -/
def roundIdsBounded (st : DBState) : Prop := ∀ r ∈ st.rounds, r.id < st.next_round_id

/-- Round ids are pairwise distinct (primary key). -/
def roundIdsNodup (st : DBState) : Prop := (st.rounds.map Round.id).Nodup

/-- Player ids stay below the AUTOINCREMENT counter. -/
def playerIdsBounded (st : DBState) : Prop := ∀ p ∈ st.players, p.id < st.next_player_id

/-- Player ids are pairwise distinct (primary key). -/
def playerIdsNodup (st : DBState) : Prop := (st.players.map Player.id).Nodup

/-- Referential integrity: every guess points at an existing round. -/
def guessRoundsExist (st : DBState) : Prop :=
  ∀ g ∈ st.guesses, ∃ r ∈ st.rounds, r.id = g.round_id

/-- The `UNIQUE(round_id, player_id)` constraint on `guesses`. -/
def guessKeysNodup (st : DBState) : Prop :=
  (st.guesses.map (fun g => (g.round_id, g.player_id))).Nodup

/-- Guesses of a still-open round have never been scored. -/
def openGuessesUnscored (st : DBState) : Prop :=
  ∀ g ∈ st.guesses, ∀ r ∈ st.rounds, r.id = g.round_id →
    r.status = RoundStatus.Open → g.total_points = 0

/-- Player names are pairwise distinct up to ASCII case. -/
def namesNocaseNodup (st : DBState) : Prop :=
  st.players.Pairwise (fun p q => nocaseKey p.name ≠ nocaseKey q.name)

/-- The singleton invariant: zero or one open round. -/
def atMostOneOpen (st : DBState) : Prop := (openRounds st).length ≤ 1

/-- All structural invariants preserved by every operation. -/
structure Inv (st : DBState) : Prop where
  rBnd : roundIdsBounded st
  rNd : roundIdsNodup st
  pBnd : playerIdsBounded st
  pNd : playerIdsNodup st
  gEx : guessRoundsExist st
  gNd : guessKeysNodup st
  gOpen0 : openGuessesUnscored st
  nmNd : namesNocaseNodup st
  open1 : atMostOneOpen st

theorem inv_initState : Inv initState := by
  constructor <;> simp [initState, roundIdsBounded, roundIdsNodup, playerIdsBounded,
    playerIdsNodup, guessRoundsExist, guessKeysNodup, openGuessesUnscored,
    namesNocaseNodup, atMostOneOpen, openRounds]

/-- The invariants never look at `settings` or `history`; states agreeing on
the other components share them. -/
theorem inv_of_eq_parts {st st' : DBState} (h : Inv st)
    (hp : st'.players = st.players) (hr : st'.rounds = st.rounds)
    (hg : st'.guesses = st.guesses) (hnr : st'.next_round_id = st.next_round_id)
    (hnp : st'.next_player_id = st.next_player_id) : Inv st' := by
  constructor
  · intro r hmem
    rw [hr] at hmem
    rw [hnr]
    exact h.rBnd r hmem
  · unfold roundIdsNodup
    rw [hr]
    exact h.rNd
  · intro p hmem
    rw [hp] at hmem
    rw [hnp]
    exact h.pBnd p hmem
  · unfold playerIdsNodup
    rw [hp]
    exact h.pNd
  · intro g hmem
    rw [hg] at hmem
    rw [hr]
    exact h.gEx g hmem
  · unfold guessKeysNodup
    rw [hg]
    exact h.gNd
  · intro g hmem r hr' hid hst
    rw [hg] at hmem
    rw [hr] at hr'
    exact h.gOpen0 g hmem r hr' hid hst
  · unfold namesNocaseNodup
    rw [hp]
    exact h.nmNd
  · unfold atMostOneOpen openRounds
    rw [hr]
    exact h.open1

/-- Membership facts behind `openRoundRow`. -/
theorem openRoundRow_mem {st : DBState} {r : Round} (h : openRoundRow st = some r) :
    r ∈ st.rounds ∧ r.status = RoundStatus.Open := by
  unfold openRoundRow at h
  have hmem : r ∈ openRounds st := by
    cases hl : (openRounds st).getLast? with
    | none => rw [hl] at h; cases h
    | some x =>
      rw [hl] at h
      cases h
      exact List.mem_of_getLast?_eq_some hl
  unfold openRounds at hmem
  have := List.mem_filter.mp hmem
  refine ⟨this.1, ?_⟩
  have := this.2
  unfold isOpenR at this
  simpa using this

theorem inv_insertAutoRound {st : DBState} (h : Inv st) (now : Nat)
    (hempty : (openRounds st).isEmpty = true) : Inv (insertAutoRound now st) := by
  have hfresh : ∀ r ∈ st.rounds, r.id < st.next_round_id := h.rBnd
  constructor
  · intro r hmem
    simp only [insertAutoRound, List.mem_append, List.mem_singleton] at hmem
    rcases hmem with hold | hnew
    · exact Nat.lt_succ_of_lt (hfresh r hold)
    · subst hnew
      simp [newAutoRound, insertAutoRound]
  · unfold roundIdsNodup
    simp only [insertAutoRound, List.map_append, List.map_cons, List.map_nil]
    refine List.Nodup.append h.rNd (by simp) ?_
    intro x hx hy
    simp only [List.mem_singleton] at hy
    subst hy
    simp only [List.mem_map] at hx
    rcases hx with ⟨r, hr, hid⟩
    have := hfresh r hr
    simp only [newAutoRound] at hid
    omega
  · intro p hmem
    exact h.pBnd p hmem
  · exact h.pNd
  · intro g hmem
    rcases h.gEx g hmem with ⟨r, hr, hid⟩
    exact ⟨r, by simp [insertAutoRound, hr], hid⟩
  · exact h.gNd
  · intro g hmem r hr' hid hst
    simp only [insertAutoRound, List.mem_append, List.mem_singleton] at hr'
    rcases hr' with hold | hnew
    · exact h.gOpen0 g hmem r hold hid hst
    · exfalso
      rcases h.gEx g hmem with ⟨r0, hr0, hid0⟩
      have hb := hfresh r0 hr0
      subst hnew
      simp only [newAutoRound] at hid
      omega
  · exact h.nmNd
  · unfold atMostOneOpen openRounds at *
    have hnil : st.rounds.filter isOpenR = [] := List.isEmpty_iff.mp hempty
    simp [insertAutoRound, List.filter_append, hnil, isOpenR, newAutoRound]

theorem inv_auto_open {st : DBState} (h : Inv st) (now : Nat) :
    Inv (auto_open_round_if_due now st) := by
  rcases auto_open_cases now st with heq | ⟨hempty, heq⟩
  · rw [heq]; exact h
  · rw [heq]; exact inv_insertAutoRound h now hempty

theorem inv_get_open_fst {st : DBState} (h : Inv st) (now : Nat) :
    Inv (get_open_round now st).1 := by
  rcases get_open_round_fst_cases now st with heq | ⟨hempty, heq⟩
  · rw [heq]; exact h
  · rw [heq]; exact inv_insertAutoRound h now hempty

theorem inv_adminTail {st : DBState} (h : Inv st) (now : Nat) :
    Inv (adminTail now st) :=
  inv_get_open_fst (inv_auto_open h now) now

/-- A settings-or-history-only rewrite of the state preserves `Inv`;
stated through `inv_of_eq_parts` at each use site. -/
theorem map_id_of_preserve {α β : Type} (f : α → α) (pr : α → β)
    (hf : ∀ r, pr (f r) = pr r) (l : List α) : (l.map f).map pr = l.map pr := by
  rw [List.map_map]
  exact List.map_congr_left (fun r _ => hf r)

theorem inv_ite {c : Prop} [Decidable c] {X Y : DBState} (hx : Inv X) (hy : Inv Y) :
    Inv (if c then X else Y) := by
  split
  · exact hx
  · exact hy

theorem inv_save_snapshot {st : DBState} (h : Inv st) (now rid : Nat) :
    Inv (save_standings_snapshot now rid st) :=
  inv_of_eq_parts h rfl rfl rfl rfl rfl

/-- Closing a round cannot increase the number of open rounds. -/
theorem filter_isOpen_map_close_le (rid now : Nat) (l : List Round) :
    (List.filter isOpenR (l.map (fun r => if r.id = rid then
      { r with status := RoundStatus.Closed, closed_at := some now } else r))).length ≤
    (List.filter isOpenR l).length := by
  induction l with
  | nil => simp
  | cons a l ih =>
    simp only [List.map_cons, List.filter_cons]
    by_cases hid : a.id = rid
    · have hcl : isOpenR { a with status := RoundStatus.Closed, closed_at := some now }
          = false := rfl
      simp only [hid, ite_true, hcl, Bool.false_eq_true, if_false]
      refine le_trans ih ?_
      by_cases ho : isOpenR a = true
      · simp only [ho, if_true, List.length_cons]
        omega
      · simp [ho]
    · simp only [hid, ite_false]
      by_cases ho : isOpenR a = true
      · simp only [ho, if_true, List.length_cons]
        omega
      · simp only [ho, if_false]
        exact ih

/-- Shape lemma for `close_round` / `end_game`: mapping a per-guess scoring
update over the guesses (touching only the round being closed) while
flipping that round to closed preserves all invariants. -/
theorem inv_close_shape {st : DBState} (h : Inv st) (now rid : Nat)
    (scoreF : Guess → Guess)
    (hsid : ∀ g, (scoreF g).round_id = g.round_id)
    (hspid : ∀ g, (scoreF g).player_id = g.player_id)
    (hsother : ∀ g, g.round_id ≠ rid → (scoreF g).total_points = g.total_points) :
    Inv { st with
      rounds := st.rounds.map (fun r => if r.id = rid then
        { r with status := RoundStatus.Closed, closed_at := some now } else r)
      guesses := st.guesses.map scoreF } := by
  have hcid : ∀ r : Round, (if r.id = rid then
      { r with status := RoundStatus.Closed, closed_at := some now } else r).id = r.id := by
    intro r
    by_cases hid : r.id = rid <;> simp [hid]
  constructor
  · intro r hmem
    simp only [List.mem_map] at hmem
    rcases hmem with ⟨r0, hr0, hmap⟩
    rw [← hmap]
    show (if r0.id = rid then _ else r0).id < st.next_round_id
    rw [hcid r0]
    exact h.rBnd r0 hr0
  · unfold roundIdsNodup
    rw [map_id_of_preserve _ Round.id hcid]
    exact h.rNd
  · exact h.pBnd
  · exact h.pNd
  · intro g hmem
    simp only [List.mem_map] at hmem
    rcases hmem with ⟨g0, hg0, hmap⟩
    rcases h.gEx g0 hg0 with ⟨r, hr, hid⟩
    refine ⟨(if r.id = rid then
      { r with status := RoundStatus.Closed, closed_at := some now } else r), ?_, ?_⟩
    · simp only [List.mem_map]
      exact ⟨r, hr, rfl⟩
    · rw [hcid r, ← hmap, hsid g0]
      exact hid
  · unfold guessKeysNodup
    rw [map_id_of_preserve scoreF (fun g => (g.round_id, g.player_id))
      (fun g => by simp [hsid g, hspid g])]
    exact h.gNd
  · intro g hmem r hr' hid hst
    simp only [List.mem_map] at hmem hr'
    rcases hmem with ⟨g0, hg0, hgmap⟩
    rcases hr' with ⟨r0, hr0, hrmap⟩
    by_cases hr0id : r0.id = rid
    · exfalso
      rw [← hrmap] at hst
      simp [hr0id] at hst
    · have hreq : r = r0 := by rw [← hrmap]; simp [hr0id]
      subst hreq
      have hgid : g.round_id = g0.round_id := by rw [← hgmap]; exact hsid g0
      have hne : g0.round_id ≠ rid := by
        rw [← hgid, ← hid]
        exact hr0id
      have := hsother g0 hne
      rw [← hgmap, this]
      apply h.gOpen0 g0 hg0 r hr0
      · rw [hid, hgid]
      · rw [← hrmap] at hst
        simpa [hr0id] using hst
  · exact h.nmNd
  · unfold atMostOneOpen openRounds at *
    exact le_trans (filter_isOpen_map_close_le rid now st.rounds) h.open1

theorem inv_closeRoundCore {st : DBState} (h : Inv st) (now rid : Nat) :
    Inv (closeRoundCore now rid st) := by
  unfold closeRoundCore compute_and_store_round_scores
  cases hf : findRound st rid with
  | none =>
    simp only [hf]
    apply inv_save_snapshot
    have := inv_close_shape h now rid id (fun _ => rfl) (fun _ => rfl) (fun _ _ => rfl)
    simpa using this
  | some rnd =>
    simp only [hf]
    apply inv_save_snapshot
    have := inv_close_shape h now rid
      (fun g => if g.round_id = rid then
        scoreGuess st.settings.difficulty rnd.correct_year (rnd.correct_song.getD "")
          (rnd.correct_artist.getD "") now g else g)
      (fun g => by by_cases hg : g.round_id = rid <;> simp [hg, scoreGuess])
      (fun g => by by_cases hg : g.round_id = rid <;> simp [hg, scoreGuess])
      (fun g hg => by simp [hg])
    simpa using this

theorem get_open_round_pair (now : Nat) (st : DBState) :
    (get_open_round now st).2 = openRoundRow (get_open_round now st).1 := by
  unfold get_open_round
  cases ho : openRoundRow st with
  | some r0 => simpa using ho.symm
  | none => rfl

theorem get_open_round_snd_mem {st : DBState} {now : Nat} {r : Round}
    (h : (get_open_round now st).2 = some r) :
    r ∈ (get_open_round now st).1.rounds ∧ r.status = RoundStatus.Open := by
  rw [get_open_round_pair] at h
  exact openRoundRow_mem h

theorem inv_setSettings {st : DBState} (h : Inv st) (s : Settings) :
    Inv { st with settings := s } :=
  inv_of_eq_parts h rfl rfl rfl rfl rfl

theorem inv_upsertGuess_open {st : DBState} (h : Inv st) {oround : Round}
    (hmem : oround ∈ st.rounds) (song artist : Option String) (year : Option Int)
    (pid now : Nat) :
    Inv { st with guesses := upsertGuess st.guesses oround.id pid song artist year now } := by
  unfold upsertGuess
  split
  · -- update path: every key-matching row is overwritten in place
    constructor
    · exact h.rBnd
    · exact h.rNd
    · exact h.pBnd
    · exact h.pNd
    · intro g hmemg
      rcases List.mem_map.mp hmemg with ⟨g0, hg0, rfl⟩
      rcases h.gEx g0 hg0 with ⟨r, hr, hid⟩
      refine ⟨r, hr, ?_⟩
      by_cases hk : guessKeyMatches oround.id pid g0 = true <;> simp [hk, hid]
    · unfold guessKeysNodup
      rw [map_id_of_preserve
        (fun g => if guessKeyMatches oround.id pid g = true then
          { g with guess_song := song, guess_artist := artist, guess_year := year
                   updated_at := now }
          else g)
        (fun g => (g.round_id, g.player_id))
        (fun g => by by_cases hk : guessKeyMatches oround.id pid g = true <;> simp [hk])]
      exact h.gNd
    · intro g hmemg r hr hid hst
      rcases List.mem_map.mp hmemg with ⟨g0, hg0, rfl⟩
      by_cases hk : guessKeyMatches oround.id pid g0 = true
      · simp only [hk, if_true]
        apply h.gOpen0 g0 hg0 r hr _ hst
        simpa [hk] using hid
      · simp only [hk, if_false]
        apply h.gOpen0 g0 hg0 r hr _ hst
        simpa [hk] using hid
    · exact h.nmNd
    · exact h.open1
  · -- insert path: fresh zero-points row
    rename_i hany
    have hnone : ∀ g ∈ st.guesses, guessKeyMatches oround.id pid g = false := by
      intro g hg
      by_contra hne
      have : st.guesses.any (guessKeyMatches oround.id pid) = true :=
        List.any_eq_true.mpr ⟨g, hg, by simpa using hne⟩
      exact hany this
    constructor
    · exact h.rBnd
    · exact h.rNd
    · exact h.pBnd
    · exact h.pNd
    · intro g hmemg
      rcases List.mem_append.mp hmemg with hold | hnew
      · exact h.gEx g hold
      · rcases List.mem_singleton.mp hnew with rfl
        exact ⟨oround, hmem, rfl⟩
    · unfold guessKeysNodup
      rw [List.map_append]
      refine List.Nodup.append h.gNd (by simp) ?_
      intro x hx hy
      simp only [List.map_cons, List.map_nil, List.mem_singleton] at hy
      subst hy
      rcases List.mem_map.mp hx with ⟨g0, hg0, hkey⟩
      have hk := hnone g0 hg0
      unfold guessKeyMatches at hk
      simp only [Prod.mk.injEq] at hkey
      simp only [decide_eq_false_iff_not] at hk
      exact hk ⟨hkey.1, hkey.2⟩
    · intro g hmemg r hr hid hst
      rcases List.mem_append.mp hmemg with hold | hnew
      · exact h.gOpen0 g hold r hr hid hst
      · rcases List.mem_singleton.mp hnew with rfl
        rfl
    · exact h.nmNd
    · exact h.open1

theorem inv_submit {st : DBState} (h : Inv st) (pid : Nat) (prid s a y : String)
    (now : Nat) : Inv (submit pid prid s a y now st).1 := by
  have hst1 : Inv (get_open_round now st).1 := inv_get_open_fst h now
  unfold submit
  simp only []
  split
  · exact h
  · split
    · exact h
    · split
      · exact hst1
      · rename_i oround heq
        split
        · exact hst1
        · split
          · exact hst1
          · exact inv_upsertGuess_open hst1 (get_open_round_snd_mem heq).1 _ _ _ _ _

theorem inv_register {st : DBState} (h : Inv st) (nm : String) (now : Nat) :
    Inv (register nm now st).1 := by
  unfold register
  simp only []
  split
  · exact h
  · cases hf : st.players.find? (fun p => nocaseKey p.name = nocaseKey (pyStrip nm)) with
    | some p => exact h
    | none =>
      have hnomatch : ∀ p ∈ st.players, nocaseKey p.name ≠ nocaseKey (pyStrip nm) := by
        intro p hp
        have := List.find?_eq_none.mp hf p hp
        simpa using this
      constructor
      · exact h.rBnd
      · exact h.rNd
      · intro p hp
        rcases List.mem_append.mp hp with hold | hnew
        · exact Nat.lt_succ_of_lt (h.pBnd p hold)
        · rcases List.mem_singleton.mp hnew with rfl
          exact Nat.lt_succ_self _
      · unfold playerIdsNodup
        rw [List.map_append]
        refine List.Nodup.append h.pNd (by simp) ?_
        intro x hx hy
        simp only [List.map_cons, List.map_nil, List.mem_singleton] at hy
        subst hy
        rcases List.mem_map.mp hx with ⟨p0, hp0, hid⟩
        have hb := h.pBnd p0 hp0
        have hid' : p0.id = st.next_player_id := hid
        omega
      · exact h.gEx
      · exact h.gNd
      · exact h.gOpen0
      · unfold namesNocaseNodup
        rw [List.pairwise_append]
        exact ⟨h.nmNd, by simp, fun p hp q hq => by
          rcases List.mem_singleton.mp hq with rfl
          exact hnomatch p hp⟩
      · exact h.open1

theorem filter_isOpen_map_len (f : Round → Round)
    (hstat : ∀ r, (f r).status = r.status) (l : List Round) :
    (List.filter isOpenR (l.map f)).length = (List.filter isOpenR l).length := by
  induction l with
  | nil => rfl
  | cons r0 l ih =>
    simp only [List.map_cons, List.filter_cons]
    have hopen : isOpenR (f r0) = isOpenR r0 := by
      unfold isOpenR
      rw [hstat r0]
    rw [hopen]
    by_cases ho : isOpenR r0 = true
    · simp [ho, ih]
    · simp [ho, ih]

theorem inv_map_rounds {st : DBState} (h : Inv st) (f : Round → Round)
    (hid : ∀ r, (f r).id = r.id) (hstat : ∀ r, (f r).status = r.status) :
    Inv { st with rounds := st.rounds.map f } := by
  constructor
  · intro r hmem
    rcases List.mem_map.mp hmem with ⟨r0, hr0, rfl⟩
    rw [hid r0]
    exact h.rBnd r0 hr0
  · unfold roundIdsNodup
    rw [map_id_of_preserve f Round.id hid]
    exact h.rNd
  · exact h.pBnd
  · exact h.pNd
  · intro g hmemg
    rcases h.gEx g hmemg with ⟨r, hr, hidg⟩
    exact ⟨f r, List.mem_map.mpr ⟨r, hr, rfl⟩, by rw [hid r]; exact hidg⟩
  · exact h.gNd
  · intro g hmemg r hr hidg hst
    rcases List.mem_map.mp hr with ⟨r0, hr0, rfl⟩
    apply h.gOpen0 g hmemg r0 hr0
    · rw [← hid r0]
      exact hidg
    · rw [← hstat r0]
      exact hst
  · exact h.nmNd
  · unfold atMostOneOpen openRounds at *
    rw [filter_isOpen_map_len f hstat]
    exact h.open1

theorem inv_set_answers {st : DBState} (h : Inv st) (s a y : String) (now : Nat) :
    Inv (admin_set_answers s a y now st) := by
  unfold admin_set_answers
  simp only []
  split
  · exact inv_adminTail h now
  · cases hro : (get_open_round now st).2 with
    | none => exact inv_adminTail (inv_get_open_fst h now) now
    | some oround =>
      refine inv_adminTail ?_ now
      exact inv_map_rounds (inv_get_open_fst h now) _
        (fun r => by split <;> rfl) (fun r => by split <;> rfl)

theorem inv_set_difficulty {st : DBState} (h : Inv st) (d : String) (now : Nat) :
    Inv (admin_set_difficulty d now st).1 := by
  unfold admin_set_difficulty
  simp only []
  split
  · exact inv_adminTail h now
  · exact inv_adminTail (inv_setSettings h _) now

theorem inv_set_qpfx {st : DBState} (h : Inv st) (p : String) (now : Nat) :
    Inv (admin_set_qpfx p now st) := by
  unfold admin_set_qpfx
  simp only []
  exact inv_adminTail (inv_setSettings h _) now

theorem inv_stop_auto {st : DBState} (h : Inv st) (now : Nat) :
    Inv (admin_stop_auto now st) := by
  unfold admin_stop_auto
  exact inv_adminTail (inv_setSettings h _) now

theorem inv_start_game {st : DBState} (h : Inv st) (now : Nat) :
    Inv (admin_start_game now st) := by
  unfold admin_start_game
  simp only []
  set st1 : DBState := if is_game_ended st = true then
      { st with settings := { st.settings with game_status := "running", ended_at := none } }
    else st with hst1def
  set st2 : DBState := { st1 with settings := { st1.settings with auto_rounds := "1" } }
    with hst2def
  have h1 : Inv st1 := by
    rw [hst1def]
    exact inv_ite (inv_setSettings h _) h
  have h2 : Inv st2 := by
    rw [hst2def]
    exact inv_setSettings h1 _
  refine inv_adminTail ?_ now
  refine inv_ite ?_ h2
  exact inv_auto_open (inv_setSettings h2 _) now

theorem inv_admin_close {st : DBState} (h : Inv st) (now : Nat) :
    Inv (admin_close_round now st) := by
  unfold admin_close_round
  simp only []
  split
  · exact inv_adminTail h now
  · cases hro : (get_open_round now st).2 with
    | none => exact inv_adminTail (inv_get_open_fst h now) now
    | some oround =>
      refine inv_adminTail ?_ now
      split
      · exact inv_setSettings (inv_closeRoundCore (inv_get_open_fst h now) now oround.id) _
      · exact inv_closeRoundCore (inv_get_open_fst h now) now oround.id

theorem inv_admin_end {st : DBState} (h : Inv st) (now : Nat) :
    Inv (admin_end_game now st) := by
  unfold admin_end_game
  simp only []
  split
  · exact inv_adminTail h now
  · cases ho : openRoundRow st with
    | none =>
      refine inv_adminTail ?_ now
      exact inv_setSettings h _
    | some oround =>
      refine inv_adminTail ?_ now
      exact inv_setSettings (inv_closeRoundCore h now oround.id) _

theorem inv_admin_reset {st : DBState} (h : Inv st) (now : Nat) :
    Inv (admin_reset_game now st) := by
  unfold admin_reset_game
  refine inv_adminTail ?_ now
  constructor
  · intro r hmem
    simp at hmem
  · unfold roundIdsNodup
    simp
  · exact h.pBnd
  · exact h.pNd
  · intro g hmem
    simp at hmem
  · unfold guessKeysNodup
    simp
  · intro g hmem
    simp at hmem
  · exact h.nmNd
  · unfold atMostOneOpen openRounds
    simp

theorem inv_stepOp (op : Op) {st : DBState} (h : Inv st) : Inv (stepOp op st) := by
  cases op with
  | opRegister n now => exact inv_register h n now
  | opSubmit pid pr s a y now => exact inv_submit h pid pr s a y now
  | opRead now => exact inv_get_open_fst h now
  | opSetDifficulty d now => exact inv_set_difficulty h d now
  | opSetQPfx p now => exact inv_set_qpfx h p now
  | opStartGame now => exact inv_start_game h now
  | opStopAuto now => exact inv_stop_auto h now
  | opSetAnswers s a y now => exact inv_set_answers h s a y now
  | opCloseRound now => exact inv_admin_close h now
  | opEndGame now => exact inv_admin_end h now
  | opResetGame now => exact inv_admin_reset h now

/-- Every reachable state satisfies all structural invariants. -/
theorem reachable_inv {st : DBState} (h : Reachable st) : Inv st := by
  induction h with
  | base => exact inv_initState
  | next op _ ih => exact inv_stepOp op ih

/-! ## Properties of the standings ordering -/

theorem lexLe_total : ∀ (a b : List Char), lexLe a b = true ∨ lexLe b a = true
  | [], _ => Or.inl rfl
  | _ :: _, [] => Or.inr rfl
  | a :: as, b :: bs => by
    unfold lexLe
    by_cases h : a.toNat = b.toNat
    · simp only [h, if_pos rfl, ite_true]
      have := lexLe_total as bs
      simpa [h] using this
    · have h' : ¬ b.toNat = a.toNat := fun hh => h hh.symm
      simp only [h, h', if_false, ite_false, decide_eq_true_eq]
      omega

theorem lexLe_trans : ∀ (a b c : List Char),
    lexLe a b = true → lexLe b c = true → lexLe a c = true
  | [], _, _, _, _ => rfl
  | a :: as, [], c, h1, _ => by simp [lexLe] at h1
  | a :: as, b :: bs, [], _, h2 => by simp [lexLe] at h2
  | a :: as, b :: bs, c :: cs, h1, h2 => by
    unfold lexLe at h1 h2 ⊢
    by_cases hab : a.toNat = b.toNat
    · rw [if_pos hab] at h1
      by_cases hbc : b.toNat = c.toNat
      · rw [if_pos hbc] at h2
        rw [if_pos (hab.trans hbc)]
        exact lexLe_trans as bs cs h1 h2
      · rw [if_neg hbc] at h2
        have hlt : b.toNat < c.toNat := by simpa using h2
        have hac : ¬ a.toNat = c.toNat := by omega
        rw [if_neg hac]
        simp only [decide_eq_true_eq]
        omega
    · rw [if_neg hab] at h1
      have hlt1 : a.toNat < b.toNat := by simpa using h1
      by_cases hbc : b.toNat = c.toNat
      · have hac : ¬ a.toNat = c.toNat := by omega
        rw [if_neg hac]
        simp only [decide_eq_true_eq]
        omega
      · rw [if_neg hbc] at h2
        have hlt2 : b.toNat < c.toNat := by simpa using h2
        have hac : ¬ a.toNat = c.toNat := by omega
        rw [if_neg hac]
        simp only [decide_eq_true_eq]
        omega

theorem standingsOrder_total (a b : StandingRow) :
    standingsOrder a b ∨ standingsOrder b a := by
  unfold standingsOrder standingsLE
  by_cases h : a.points = b.points
  · rw [if_pos h, if_pos h.symm]
    exact lexLe_total _ _
  · rw [if_neg h, if_neg (fun hh => h hh.symm)]
    simp only [decide_eq_true_eq]
    omega

theorem standingsOrder_trans (a b c : StandingRow) :
    standingsOrder a b → standingsOrder b c → standingsOrder a c := by
  intro h1 h2
  unfold standingsOrder standingsLE at h1 h2 ⊢
  by_cases hab : a.points = b.points
  · rw [if_pos hab] at h1
    by_cases hbc : b.points = c.points
    · rw [if_pos hbc] at h2
      rw [if_pos (hab.trans hbc)]
      exact lexLe_trans _ _ _ h1 h2
    · rw [if_neg hbc] at h2
      have hlt : c.points < b.points := by simpa using h2
      have hac : ¬ a.points = c.points := by omega
      rw [if_neg hac]
      simp only [decide_eq_true_eq]
      omega
  · rw [if_neg hab] at h1
    have hlt1 : b.points < a.points := by simpa using h1
    by_cases hbc : b.points = c.points
    · have hac : ¬ a.points = c.points := by omega
      rw [if_neg hac]
      simp only [decide_eq_true_eq]
      omega
    · rw [if_neg hbc] at h2
      have hlt2 : c.points < b.points := by simpa using h2
      have hac : ¬ a.points = c.points := by omega
      rw [if_neg hac]
      simp only [decide_eq_true_eq]
      omega

instance : IsTotal StandingRow standingsOrder := ⟨standingsOrder_total⟩

instance : IsTrans StandingRow standingsOrder := ⟨standingsOrder_trans⟩

/-- The sorted output is a permutation of the one-row-per-player input. -/
theorem compute_standings_perm (st : DBState) :
    List.Perm (compute_standings st)
      (st.players.map (fun p => StandingRow.mk p.id p.name (playerPoints st p.id))) :=
  List.perm_insertionSort standingsOrder _

theorem compute_standings_sorted (st : DBState) :
    List.Pairwise standingsOrder (compute_standings st) :=
  List.sorted_insertionSort standingsOrder _

/-! ## Standings points come from closed rounds only -/

/-- Whether the round with this id exists and is closed. -/
def isClosedRoundId (st : DBState) (rid : Nat) : Bool :=
  match findRound st rid with
  | some r => r.status = RoundStatus.Closed
  | none => false

/-- Sum of `total_points` over the player's guesses in closed rounds — the
specification's reading of a player's standings points. -/
def closedPoints (st : DBState) (pid : Nat) : Int :=
  ((st.guesses.filter (fun g => g.player_id = pid ∧ isClosedRoundId st g.round_id)).map
    Guess.total_points).sum

theorem find_round_nodup : ∀ (l : List Round), (l.map Round.id).Nodup → ∀ r ∈ l,
    l.find? (fun x => x.id = r.id) = some r := by
  intro l
  induction l with
  | nil =>
    intro _ r hr
    cases hr
  | cons a l ih =>
    intro hnd r hr
    have hnd2 : Round.id a ∉ l.map Round.id ∧ (l.map Round.id).Nodup := by
      rw [List.map_cons, List.nodup_cons] at hnd
      exact hnd
    rcases List.mem_cons.mp hr with rfl | hmem
    · exact List.find?_cons_of_pos _ (by simp)
    · have hne : ¬ (a.id = r.id) := by
        intro he
        exact hnd2.1 (he ▸ List.mem_map.mpr ⟨r, hmem, rfl⟩)
      rw [List.find?_cons_of_neg _ (by simpa using hne)]
      exact ih hnd2.2 r hmem

theorem findRound_of_mem {st : DBState} (hnd : roundIdsNodup st) {r : Round}
    (hr : r ∈ st.rounds) : findRound st r.id = some r :=
  find_round_nodup st.rounds hnd r hr

/-- Under the invariants, a guess that is not on a closed round has zero
total points. -/
theorem non_closed_guess_zero {st : DBState} (hinv : Inv st) {g : Guess}
    (hg : g ∈ st.guesses) (hnc : isClosedRoundId st g.round_id = false) :
    g.total_points = 0 := by
  rcases hinv.gEx g hg with ⟨r, hr, hid⟩
  have hfind : findRound st g.round_id = some r := by
    rw [← hid]
    exact findRound_of_mem hinv.rNd hr
  unfold isClosedRoundId at hnc
  rw [hfind] at hnc
  simp only [decide_eq_false_iff_not] at hnc
  cases hst : r.status with
  | Closed => exact absurd hst hnc
  | Open => exact hinv.gOpen0 g hg r hr hid hst

theorem sum_filter_total (st : DBState) (pid : Nat) :
    ∀ (l : List Guess),
      (∀ g ∈ l, g.player_id = pid → isClosedRoundId st g.round_id = false →
        g.total_points = 0) →
      ((l.filter (fun g => decide (g.player_id = pid) && isClosedRoundId st g.round_id)).map
        Guess.total_points).sum =
      ((l.filter (fun g => g.player_id = pid)).map Guess.total_points).sum := by
  intro l
  induction l with
  | nil => intro _; rfl
  | cons g l ih =>
    intro h0
    have hrest : ∀ g' ∈ l, g'.player_id = pid → isClosedRoundId st g'.round_id = false →
        g'.total_points = 0 :=
      fun g' hg' => h0 g' (List.mem_cons_of_mem _ hg')
    simp only [List.filter_cons]
    by_cases hp : g.player_id = pid
    · by_cases hq : isClosedRoundId st g.round_id = true
      · simp [hp, hq, ih hrest]
      · have h0g := h0 g (List.mem_cons_self g l) hp (by simpa using hq)
        simp [hp, hq, h0g, ih hrest]
    · simp [hp, ih hrest]

/-- The SQL aggregate of `compute_standings` (no round filter) agrees with
the closed-rounds-only sum on every invariant-satisfying state, because
open-round guesses are unscored. -/
theorem playerPoints_eq_closedPoints {st : DBState} (hinv : Inv st) (pid : Nat) :
    playerPoints st pid = closedPoints st pid := by
  unfold playerPoints closedPoints
  have hswap : st.guesses.filter
        (fun g => g.player_id = pid ∧ isClosedRoundId st g.round_id) =
      st.guesses.filter
        (fun g => decide (g.player_id = pid) && isClosedRoundId st g.round_id) := by
    apply List.filter_congr
    intro g _
    by_cases h1 : g.player_id = pid <;> by_cases h2 : isClosedRoundId st g.round_id = true <;>
      simp [h1, h2]
  rw [hswap]
  exact (sum_filter_total st pid st.guesses
    (fun g hg _ hq => non_closed_guess_zero hinv hg hq)).symm

/-! ## Concrete reachable states used by the witnesses -/

/-- One registered player, then `start_game`, which auto-opens round 1. -/
def stGame : DBState :=
  stepOp (Op.opStartGame 0) (stepOp (Op.opRegister "Alice" 0) initState)

theorem stGame_reachable : Reachable stGame :=
  Reachable.next _ (Reachable.next _ Reachable.base)

/-- The same game after Alice submits a guess and the round is closed. -/
def stClosed : DBState :=
  stepOp (Op.opCloseRound 3)
    (stepOp (Op.opSetAnswers "Yesterday" "The Beatles" "1965" 2)
      (stepOp (Op.opSubmit 1 "1" "  yesterday " "beatles" "1964" 1) stGame))

theorem stClosed_reachable : Reachable stClosed :=
  Reachable.next _ (Reachable.next _ (Reachable.next _ stGame_reachable))

/-! ## Claim C8 -/

/-- C8: `compute_standings` lists every registered player exactly once (a
player with zero guesses appears with 0 points), each player's points equal
the sum of `total_points` over that player's guesses in closed rounds only,
and rows are ordered by points descending with ties broken by the
case-folded player name ascending. -/
theorem C8_standings (st : DBState) (hre : Reachable st) :
    List.Perm ((compute_standings st).map StandingRow.player_id)
      (st.players.map Player.id) ∧
    (∀ row ∈ compute_standings st, row.points = closedPoints st row.player_id) ∧
    List.Pairwise (fun a b => b.points < a.points ∨ (a.points = b.points ∧
      lexLe (nocaseKey a.player) (nocaseKey b.player) = true)) (compute_standings st) ∧
    (∀ p ∈ st.players, (∀ g ∈ st.guesses, g.player_id ≠ p.id) →
      ∃ row ∈ compute_standings st, row.player_id = p.id ∧ row.points = 0) := by
  have hinv := reachable_inv hre
  refine ⟨?_, ?_, ?_, ?_⟩
  · have hp := (compute_standings_perm st).map StandingRow.player_id
    refine hp.trans (List.Perm.of_eq ?_)
    rw [List.map_map]
    rfl
  · intro row hrow
    have hmem : row ∈ st.players.map
        (fun p => StandingRow.mk p.id p.name (playerPoints st p.id)) :=
      (compute_standings_perm st).mem_iff.mp hrow
    rcases List.mem_map.mp hmem with ⟨p, hp, rfl⟩
    simpa using playerPoints_eq_closedPoints hinv p.id
  · refine (compute_standings_sorted st).imp ?_
    intro a b hab
    unfold standingsOrder standingsLE at hab
    by_cases h : a.points = b.points
    · rw [if_pos h] at hab
      exact Or.inr ⟨h, hab⟩
    · rw [if_neg h] at hab
      exact Or.inl (by simpa using hab)
  · intro p hp hnog
    refine ⟨StandingRow.mk p.id p.name (playerPoints st p.id), ?_, rfl, ?_⟩
    · exact (compute_standings_perm st).mem_iff.mpr (List.mem_map.mpr ⟨p, hp, rfl⟩)
    · show playerPoints st p.id = 0
      unfold playerPoints
      have hnil : st.guesses.filter (fun g => g.player_id = p.id) = [] := by
        rw [List.filter_eq_nil_iff]
        intro g hg
        simpa using hnog g hg
      rw [hnil]
      rfl

theorem C8_standings_witness :
    List.Perm ((compute_standings stGame).map StandingRow.player_id)
      (stGame.players.map Player.id) :=
  (C8_standings stGame stGame_reachable).1

/-! ## Claim C3 -/

/-- The year-scoring table exactly as the specification tabulates it, with
the bands d=0, d=1, d=2, 3..5, 6..10 and a last column for d>10 (spec-side
reference definition for the refinement proof of claim C3). -/
def score_year_spec (d : Nat) (difficulty : String) : Int :=
  if difficulty = "easy" then
    if d = 0 then 5 else if d = 1 then 4 else if d = 2 then 3
    else if d ≤ 5 then 2 else if d ≤ 10 then 1 else 0
  else if difficulty = "hard" then
    if d = 0 then 10 else if d = 1 then 8 else if d = 2 then 6
    else if d ≤ 5 then 4 else if d ≤ 10 then 2 else -4
  else if difficulty = "extreme" then
    if d = 0 then 10 else if d > 10 then -5 else 0
  else 0

/-- A concrete state for observing that negative scores are stored without
clamping: difficulty `hard`, correct year 1990, guessed year 2001. -/
def stC3 : DBState :=
  { players := [Player.mk 1 "alice" 0]
    rounds := [{ id := 1, question := none, status := RoundStatus.Open
                 correct_song := none, correct_artist := none, correct_year := some 1990
                 created_at := 0, closed_at := none }]
    guesses := [Guess.mk 1 1 none none (some 2001) 0 0 0 0 0 0]
    history := []
    settings := { difficulty := "hard", game_status := "running", ended_at := none
                  auto_rounds := "0", next_round_at := none, questionPfx := "Song #" }
    next_round_id := 2, next_player_id := 2 }

/-- C3: per-guess year points follow the difficulty table on
d = |guess_year - correct_year| (easy 5/4/3/2/1 then 0; hard 10/8/6/4/2 then
-4; extreme 10 at d=0, -5 for d>10, else 0); a guess with no year or a round
with no correct year contributes 0; negative values are stored unclamped. -/
theorem C3_year_scoring :
    (∀ d difficulty, score_year d difficulty = score_year_spec d difficulty) ∧
    (∀ difficulty cy cs ca now g, g.guess_year = none ∨ cy = none →
      (scoreGuess difficulty cy cs ca now g).points_year = 0) ∧
    (∀ difficulty cy cs ca now g c yv, cy = some c → g.guess_year = some yv →
      (scoreGuess difficulty cy cs ca now g).points_year =
        score_year (yv - c).natAbs difficulty) ∧
    (score_year 1 "hard" = 8 ∧ score_year 9 "hard" = 2 ∧ score_year 11 "hard" = -4) ∧
    ((compute_and_store_round_scores 5 1 stC3).guesses.map Guess.points_year = [-4] ∧
     (compute_and_store_round_scores 5 1 stC3).guesses.map Guess.total_points = [-4]) := by
  refine ⟨?_, ?_, ?_, by decide, by decide⟩
  · intro d difficulty
    unfold score_year score_year_spec
    split_ifs <;> omega
  · intro difficulty cy cs ca now g h
    rcases h with h | h
    · cases cy <;> simp [scoreGuess, h]
    · subst h
      simp [scoreGuess]
  · intro difficulty cy cs ca now g c yv hcy hgy
    subst hcy
    simp [scoreGuess, hgy]

theorem C3_year_scoring_witness :
    (scoreGuess "easy" none "" "" 0 (Guess.mk 1 1 none none (some 1990) 0 0 0 0 0 0)).points_year
        = 0 ∧
    (scoreGuess "hard" (some 1990) "" "" 0
        (Guess.mk 1 1 none none (some 2001) 0 0 0 0 0 0)).points_year =
      score_year ((2001 : Int) - 1990).natAbs "hard" ∧
    score_year 3 "easy" = score_year_spec 3 "easy" :=
  ⟨C3_year_scoring.2.1 "easy" none "" "" 0 _ (Or.inr rfl),
   C3_year_scoring.2.2.1 "hard" (some 1990) "" "" 0 _ 1990 2001 rfl rfl,
   C3_year_scoring.1 3 "easy"⟩

/-! ## Claim C4 -/

/-- The claim's reading of the song/artist scorer: 0 when the correct value
is absent (NULL or empty), else 5 exactly on normalized equality (spec-side
reference definition for the refinement proof of claim C4). -/
def score_song_artist_spec (guess correct : Option String) : Int :=
  if correct = none ∨ correct = some "" then 0
  else if normalize_text guess = normalize_text correct then 5 else 0

/-- C4: song/artist points are 5 exactly when the trimmed,
whitespace-collapsed, case-folded guess equals the equally normalized
correct value, 0 when the correct value is absent or the normalized strings
differ; hence values always lie in 0 or 5, and the normalization makes
Yesterday match its padded lowercase form. -/
theorem C4_song_artist_scoring :
    (∀ g c, score_song_artist g c = score_song_artist_spec g c) ∧
    (∀ g c, score_song_artist g c = 0 ∨ score_song_artist g c = 5) ∧
    normalize_text (some "Yesterday") = normalize_text (some "  yesterday ") ∧
    score_song_artist (some "Yesterday") (some "  yesterday ") = 5 ∧
    (∀ difficulty cy cs ca now g,
      (scoreGuess difficulty cy cs ca now g).points_song =
        score_song_artist g.guess_song (some cs) ∧
      (scoreGuess difficulty cy cs ca now g).points_artist =
        score_song_artist g.guess_artist (some ca)) := by
  refine ⟨?_, ?_, by decide, by decide, ?_⟩
  · intro g c
    unfold score_song_artist score_song_artist_spec pyFalsy
    cases c with
    | none => simp
    | some s =>
      by_cases hs : s = "" <;> simp [hs]
  · intro g c
    unfold score_song_artist
    split
    · exact Or.inl rfl
    · split
      · exact Or.inr rfl
      · exact Or.inl rfl
  · intro difficulty cy cs ca now g
    exact ⟨rfl, rfl⟩

/-! ## Claim C7 -/

/-- C7: the delta map is empty when no round has ever been closed; when
there is no earlier closed round every delta is 0; otherwise each player of
the latest snapshot gets previous rank minus latest rank, with a player
absent from the previous snapshot getting 0. -/
theorem C7_rank_delta (st : DBState) :
    ((∀ r ∈ st.rounds, r.status ≠ RoundStatus.Closed) →
      get_rank_delta_for_latest st = []) ∧
    (∀ last, lastClosedRow st = some last →
      (st.rounds.filter (fun r => r.status = RoundStatus.Closed ∧ r.id < last.id)).getLast?
        = none →
      ∀ x ∈ get_rank_delta_for_latest st, x.2 = 0) ∧
    (∀ last prev, lastClosedRow st = some last →
      (st.rounds.filter (fun r => r.status = RoundStatus.Closed ∧ r.id < last.id)).getLast?
        = some prev →
      ∀ row ∈ st.history.filter (fun r => r.round_id = last.id),
        ((st.history.filter (fun r => r.round_id = prev.id)).find?
            (fun q => q.player_id = row.player_id) = none →
          (row.player_id, (0 : Int)) ∈ get_rank_delta_for_latest st) ∧
        (∀ q, (st.history.filter (fun r => r.round_id = prev.id)).find?
            (fun q2 => q2.player_id = row.player_id) = some q →
          (row.player_id, Int.ofNat q.rank - Int.ofNat row.rank)
            ∈ get_rank_delta_for_latest st)) := by
  refine ⟨?_, ?_, ?_⟩
  · intro hnone
    unfold get_rank_delta_for_latest lastClosedRow closedRounds
    have hnil : st.rounds.filter (fun r => r.status = RoundStatus.Closed) = [] := by
      rw [List.filter_eq_nil_iff]
      intro r hr
      simpa using hnone r hr
    rw [hnil]
    rfl
  · intro last hlast hprev
    unfold get_rank_delta_for_latest
    rw [hlast]
    simp only []
    rw [hprev]
    simp only []
    intro x hx
    rcases List.mem_map.mp hx with ⟨r, hr, rfl⟩
    rfl
  · intro last prev hlast hprev row hrow
    constructor
    · intro hfind
      unfold get_rank_delta_for_latest
      rw [hlast]
      simp only []
      rw [hprev]
      simp only []
      refine List.mem_map.mpr ⟨row, hrow, ?_⟩
      rw [hfind]
      simp
    · intro q hfind
      unfold get_rank_delta_for_latest
      rw [hlast]
      simp only []
      rw [hprev]
      simp only []
      exact List.mem_map.mpr ⟨row, hrow, by rw [hfind]⟩

/-- A second player registers after round 1 closed; round 2 auto-opens and
closes with Bob ahead, so Alice moves from rank 1 to rank 2. -/
def stDelta : DBState :=
  stepOp (Op.opCloseRound 9)
    (stepOp (Op.opSetAnswers "x" "y" "2000" 8)
      (stepOp (Op.opSubmit 2 "2" "x" "y" "2000" 8)
        (stepOp (Op.opRead 8)
          (stepOp (Op.opRegister "Bob" 4) stClosed))))

theorem C7_rank_delta_witness :
    ((1 : Nat), Int.ofNat 1 - Int.ofNat 2) ∈ get_rank_delta_for_latest stDelta ∧
    ((2 : Nat), (0 : Int)) ∈ get_rank_delta_for_latest stDelta := by
  constructor
  · exact ((C7_rank_delta stDelta).2.2
      { id := 2, question := some "Song #2", status := RoundStatus.Closed
        correct_song := some "x", correct_artist := some "y", correct_year := some 2000
        created_at := 8, closed_at := some 9 }
      { id := 1, question := some "Song #1", status := RoundStatus.Closed
        correct_song := some "Yesterday", correct_artist := some "The Beatles"
        correct_year := some 1965, created_at := 0, closed_at := some 3 }
      (by decide) (by decide)
      (SnapRow.mk 2 1 2 9 9) (by decide)).2 (SnapRow.mk 1 1 1 9 3) (by decide)
  · exact ((C7_rank_delta stDelta).2.2
      { id := 2, question := some "Song #2", status := RoundStatus.Closed
        correct_song := some "x", correct_artist := some "y", correct_year := some 2000
        created_at := 8, closed_at := some 9 }
      { id := 1, question := some "Song #1", status := RoundStatus.Closed
        correct_song := some "Yesterday", correct_artist := some "The Beatles"
        correct_year := some 1965, created_at := 0, closed_at := some 3 }
      (by decide) (by decide)
      (SnapRow.mk 2 2 1 15 9) (by decide)).1 (by decide)

/-! ## Claim C9 -/

/-- C9: every reachable state has at most one open round, and the scheduler
inserts exactly when the re-validated preconditions (no open round, raw
game_status `running`, raw auto_rounds `1`, a due `next_round_at`) hold,
appending one fresh open round and clearing `next_round_at` while touching
nothing else; on any failed re-check it aborts with the state unchanged. -/
theorem C9_single_open_scheduler :
    (∀ st, Reachable st → atMostOneOpen st) ∧
    (∀ now st, schedulerDue now st →
      auto_open_round_if_due now st = insertAutoRound now st ∧
      (insertAutoRound now st).rounds = st.rounds ++ [newAutoRound now st] ∧
      (newAutoRound now st).status = RoundStatus.Open ∧
      (insertAutoRound now st).settings.next_round_at = none ∧
      (insertAutoRound now st).guesses = st.guesses ∧
      (insertAutoRound now st).players = st.players ∧
      (insertAutoRound now st).history = st.history ∧
      (insertAutoRound now st).settings.game_status = st.settings.game_status ∧
      (insertAutoRound now st).settings.difficulty = st.settings.difficulty) ∧
    (∀ now st, ¬ schedulerDue now st → auto_open_round_if_due now st = st) :=
  ⟨fun _ h => (reachable_inv h).open1,
   fun now st hdue =>
     ⟨(auto_open_spec now st).1 hdue, rfl, rfl, rfl, rfl, rfl, rfl, rfl, rfl⟩,
   fun now st hnot => (auto_open_spec now st).2 hnot⟩

/-- State whose scheduler is due: running, auto rounds on, timer elapsed. -/
def stDue : DBState :=
  { initState with settings := { initState.settings with
      auto_rounds := "1", next_round_at := some 5 } }

theorem C9_single_open_scheduler_witness :
    atMostOneOpen stGame ∧
    auto_open_round_if_due 7 stDue = insertAutoRound 7 stDue ∧
    auto_open_round_if_due 7 initState = initState :=
  ⟨C9_single_open_scheduler.1 stGame stGame_reachable,
   (C9_single_open_scheduler.2.1 7 stDue
     ⟨by decide, rfl, rfl, 5, rfl, by decide⟩).1,
   C9_single_open_scheduler.2.2 7 initState (by
     intro h
     rcases h with ⟨_, _, hauto, _⟩
     exact absurd hauto (by decide))⟩

/-! ## Claim C6 -/

theorem adminTail_parts (now : Nat) (st : DBState) :
    (adminTail now st).settings.difficulty = st.settings.difficulty ∧
    (adminTail now st).settings.game_status = st.settings.game_status := by
  unfold adminTail
  rcases get_open_round_fst_cases now (auto_open_round_if_due now st) with he | ⟨_, he⟩ <;>
    rcases auto_open_cases now st with ha | ⟨_, ha⟩ <;> rw [he, ha] <;> exact ⟨rfl, rfl⟩

/-- C6: `set_difficulty` succeeds while no round exists, and once any round
exists it fails with the lock error, leaving the stored difficulty
unchanged. -/
theorem C6_difficulty_lock (d : String) (now : Nat) (st : DBState) :
    (st.rounds = [] →
      (admin_set_difficulty d now st).2 = none ∧
      ∃ dv, (dv = "easy" ∨ dv = "hard" ∨ dv = "extreme") ∧
        (admin_set_difficulty d now st).1.settings.difficulty = dv) ∧
    (st.rounds ≠ [] →
      (admin_set_difficulty d now st).2.isSome = true ∧
      (admin_set_difficulty d now st).1.settings.difficulty =
        st.settings.difficulty) := by
  constructor
  · intro hnil
    have hlock : difficulty_locked st = false := by
      unfold difficulty_locked
      rw [hnil]
      rfl
    unfold admin_set_difficulty
    simp only [hlock, Bool.false_eq_true, if_false, ite_false]
    refine ⟨by trivial, ?_⟩
    set d1 := pyLower (pyStrip (if d = "" then "easy" else d)) with hd1
    by_cases hv : d1 = "easy" ∨ d1 = "hard" ∨ d1 = "extreme"
    · refine ⟨d1, hv, ?_⟩
      rw [(adminTail_parts now _).1]
      simp only [hv, if_true, ite_true]
    · refine ⟨"easy", Or.inl rfl, ?_⟩
      rw [(adminTail_parts now _).1]
      simp only [hv, if_false, ite_false]
  · intro hne
    have hlock : difficulty_locked st = true := by
      unfold difficulty_locked
      cases hl : st.rounds with
      | nil => exact absurd hl hne
      | cons a l => simp [hl]
    unfold admin_set_difficulty
    simp only [hlock, if_true, ite_true]
    exact ⟨rfl, (adminTail_parts now st).1⟩

theorem C6_difficulty_lock_witness :
    (admin_set_difficulty "hard" 0 initState).2 = none ∧
    (admin_set_difficulty "extreme" 0 stGame).2.isSome = true ∧
    (admin_set_difficulty "extreme" 0 stGame).1.settings.difficulty =
      stGame.settings.difficulty :=
  ⟨((C6_difficulty_lock "hard" 0 initState).1 rfl).1,
   ((C6_difficulty_lock "extreme" 0 stGame).2 (by decide)).1,
   ((C6_difficulty_lock "extreme" 0 stGame).2 (by decide)).2⟩

/-! ## Claim C1 -/

/-- The history rows `save_standings_snapshot` produces for a round: the
1-based enumeration position of the standings order is the stored rank. -/
def snapRowsFor (st : DBState) (rid now : Nat) : List SnapRow :=
  (List.enumFrom 1 (compute_standings st)).map
    (fun is => SnapRow.mk rid is.2.player_id is.1 is.2.points now)

theorem upsertSnap_append (h : List SnapRow) (row : SnapRow)
    (hno : ∀ r ∈ h, ¬(r.round_id = row.round_id ∧ r.player_id = row.player_id)) :
    upsertSnap h row = h ++ [row] := by
  unfold upsertSnap
  rw [if_neg]
  intro hany
  rcases List.any_eq_true.mp hany with ⟨r, hr, hpr⟩
  exact hno r hr (by simpa using hpr)

theorem foldl_upsertSnap : ∀ (rows : List SnapRow) (h : List SnapRow),
    (∀ row ∈ rows, ∀ r ∈ h, ¬(r.round_id = row.round_id ∧ r.player_id = row.player_id)) →
    rows.Pairwise (fun x y_ => ¬(x.round_id = y_.round_id ∧ x.player_id = y_.player_id)) →
    rows.foldl upsertSnap h = h ++ rows := by
  intro rows
  induction rows with
  | nil =>
    intro h _ _
    simp
  | cons row rows ih =>
    intro h hfresh hpw
    have hpc := List.pairwise_cons.mp hpw
    simp only [List.foldl_cons]
    rw [upsertSnap_append h row (fun r hr => hfresh row (List.mem_cons_self _ _) r hr)]
    rw [ih (h ++ [row]) ?_ hpc.2]
    · simp
    · intro row2 hrow2 r hr
      rcases List.mem_append.mp hr with hin | hsing
      · exact hfresh row2 (List.mem_cons_of_mem _ hrow2) r hin
      · rcases List.mem_singleton.mp hsing with rfl
        exact hpc.1 row2 hrow2

/-- Characterisation of the snapshot write when the round has no prior
history rows and player ids are distinct: one new row per standings entry is
appended, ranked by enumeration position. -/
theorem save_snapshot_spec (st : DBState) (rid now : Nat)
    (hhist : ∀ r ∈ st.history, r.round_id ≠ rid)
    (hnd : ((compute_standings st).map StandingRow.player_id).Nodup) :
    (save_standings_snapshot now rid st).history = st.history ++ snapRowsFor st rid now := by
  unfold save_standings_snapshot snapRowsFor
  show ((List.enumFrom 1 (compute_standings st)).foldl
      (fun h is => upsertSnap h (SnapRow.mk rid is.2.player_id is.1 is.2.points now))
      st.history) = _
  rw [← List.foldl_map (fun is : Nat × StandingRow =>
      SnapRow.mk rid is.2.player_id is.1 is.2.points now) upsertSnap]
  rw [foldl_upsertSnap _ st.history ?fresh ?pw]
  case fresh =>
    intro row hrow r hr hcon
    rcases List.mem_map.mp hrow with ⟨is, his, rfl⟩
    exact hhist r hr hcon.1
  case pw =>
    rw [List.pairwise_map]
    have hsnd : (List.enumFrom 1 (compute_standings st)).Pairwise
        (fun x y_ => x.2.player_id ≠ y_.2.player_id) := by
      have h1 : ((List.enumFrom 1 (compute_standings st)).map Prod.snd).Pairwise
          (fun x y_ : StandingRow => x.player_id ≠ y_.player_id) := by
        rw [List.enumFrom_map_snd]
        have := List.pairwise_map.mp hnd
        exact this.imp (fun hxy => hxy)
      exact (List.pairwise_map.mp h1).imp (fun hxy => hxy)
    exact hsnd.imp (fun hxy hcon => hxy hcon.2)

/-- Three players with 10, 10 and 7 points on one closed round: the
counterexample state for dense ranking. -/
def stC1 : DBState :=
  { players := [Player.mk 1 "a" 0, Player.mk 2 "b" 0, Player.mk 3 "c" 0]
    rounds := [{ id := 1, question := none, status := RoundStatus.Closed
                 correct_song := none, correct_artist := none, correct_year := none
                 created_at := 0, closed_at := some 0 }]
    guesses := [Guess.mk 1 1 none none none 0 0 0 10 0 0,
                Guess.mk 1 2 none none none 0 0 0 10 0 0,
                Guess.mk 1 3 none none none 0 0 0 7 0 0]
    history := []
    settings := { difficulty := "easy", game_status := "running", ended_at := none
                  auto_rounds := "0", next_round_at := none, questionPfx := "Song #" }
    next_round_id := 2, next_player_id := 4 }

/-- C1 counterexample: with points 10, 10, 7 the code writes snapshot ranks
1, 2, 3 and serves API ranks 1, 2, 3 — the two players on 10 points do NOT
share a rank, and the 7-point player gets rank 3 for a different reason
(position) than dense ranking would assign. -/
theorem C1_counterexample :
    playerPoints stC1 1 = 10 ∧ playerPoints stC1 2 = 10 ∧ playerPoints stC1 3 = 7 ∧
    ((save_standings_snapshot 0 1 stC1).history.map (fun r => (r.player_id, r.rank)) =
      [(1, 1), (2, 2), (3, 3)]) ∧
    ((api_standings stC1).map (fun r => (r.player, r.points, r.rank)) =
      [("a", 10, 1), ("b", 10, 2), ("c", 7, 3)]) := by
  decide

/-- C1 amended: ranks are the 1-based ordinal positions of the standings
order (players with equal points receive distinct consecutive ranks, ties
ordered by name), both in the per-round snapshot and in the standings API. -/
theorem C1_ordinal_ranks (st : DBState) (rid now : Nat)
    (hhist : ∀ r ∈ st.history, r.round_id ≠ rid)
    (hnd : ((compute_standings st).map StandingRow.player_id).Nodup) :
    (save_standings_snapshot now rid st).history = st.history ++ snapRowsFor st rid now ∧
    (snapRowsFor st rid now).map SnapRow.rank =
      List.range' 1 (compute_standings st).length ∧
    (api_standings st).map ApiStandingRow.rank =
      List.range' 1 (compute_standings st).length := by
  refine ⟨save_snapshot_spec st rid now hhist hnd, ?_, ?_⟩
  · unfold snapRowsFor
    rw [List.map_map]
    have : (SnapRow.rank ∘ fun is : Nat × StandingRow =>
        SnapRow.mk rid is.2.player_id is.1 is.2.points now) = Prod.fst := rfl
    rw [this, List.enumFrom_map_fst]
  · unfold api_standings
    rw [List.map_map]
    have : (ApiStandingRow.rank ∘ fun is : Nat × StandingRow =>
        ApiStandingRow.mk is.1 is.2.player is.2.points
          (deltaLookup (get_rank_delta_for_latest st) is.2.player_id)) = Prod.fst := rfl
    rw [this, List.enumFrom_map_fst]

theorem C1_ordinal_ranks_witness :
    (save_standings_snapshot 0 1 stC1).history = stC1.history ++ snapRowsFor stC1 1 0 ∧
    (snapRowsFor stC1 1 0).map SnapRow.rank =
      List.range' 1 (compute_standings stC1).length :=
  ⟨(C1_ordinal_ranks stC1 1 0 (by decide) (by decide)).1,
   (C1_ordinal_ranks stC1 1 0 (by decide) (by decide)).2.1⟩

/-! ## Claim C2 -/

theorem get_open_round_guesses (now : Nat) (st : DBState) :
    (get_open_round now st).1.guesses = st.guesses := by
  rcases get_open_round_fst_cases now st with he | ⟨_, he⟩ <;> (rw [he]; try rfl)

theorem get_open_round_players (now : Nat) (st : DBState) :
    (get_open_round now st).1.players = st.players := by
  rcases get_open_round_fst_cases now st with he | ⟨_, he⟩ <;> (rw [he]; try rfl)

theorem get_open_round_game_status (now : Nat) (st : DBState) :
    (get_open_round now st).1.settings.game_status = st.settings.game_status := by
  rcases get_open_round_fst_cases now st with he | ⟨_, he⟩ <;> (rw [he]; try rfl)

/-- Full evaluation of `submit` once the session, game-status, open-round
and round-id checks are known to pass. -/
theorem submit_eval (st : DBState) (pid : Nat) (prid s a y : String) (now : Nat)
    (oround : Round)
    (hp : (st.players.find? (fun p => p.id = pid)).isNone = false)
    (hend : is_game_ended st = false)
    (hro : (get_open_round now st).2 = some oround)
    (hpost : ¬(pyStrip prid = "" ∨ natToStr oround.id ≠ pyStrip prid)) :
    submit pid prid s a y now st =
      (if pyStrip s = "" ∧ pyStrip a = "" ∧ pyStrip y = ""
       then ((get_open_round now st).1, SubmitResult.enterOne)
       else ({ (get_open_round now st).1 with guesses :=
           (upsertGuess (get_open_round now st).1.guesses oround.id pid
             (if pyStrip s = "" then none else some (pyStrip s))
             (if pyStrip a = "" then none else some (pyStrip a))
             (if pyStrip y = "" then none else parse_int (pyStrip y)) now) },
         SubmitResult.ok)) := by
  unfold submit
  simp only []
  rw [hp]
  simp only [Bool.false_eq_true, if_false, ite_false]
  rw [hend]
  simp only [Bool.false_eq_true, if_false, ite_false]
  rw [hro]
  simp only []
  rw [if_neg hpost]

/-- C2 counterexample: in a running game with an open round, a submission
whose song and artist are empty and whose year is the unparsable string
abc is ACCEPTED (the validation checks the raw year string), storing a
Guess row with all three of guess_song, guess_artist, guess_year absent. -/
theorem C2_counterexample :
    (submit 1 "1" "" "" "abc" 1 stGame).2 = SubmitResult.ok ∧
    parse_int "abc" = none ∧
    ((submit 1 "1" "" "" "abc" 1 stGame).1.guesses.map
      (fun g => (g.guess_song, g.guess_artist, g.guess_year))) = [(none, none, none)] := by
  decide

/-- C2 amended: `submit` rejects with the enter-one validation error, and
stores no Guess row, exactly when all three submitted fields are empty
after trimming; a non-empty but unparsable year counts as an answered field
for validation while being stored as absent. -/
theorem C2_validation (st : DBState) (pid : Nat) (prid s a y : String) (now : Nat)
    (oround : Round)
    (hp : (st.players.find? (fun p => p.id = pid)).isNone = false)
    (hend : is_game_ended st = false)
    (hro : (get_open_round now st).2 = some oround)
    (hpost : ¬(pyStrip prid = "" ∨ natToStr oround.id ≠ pyStrip prid)) :
    ((pyStrip s = "" ∧ pyStrip a = "" ∧ pyStrip y = "") →
      (submit pid prid s a y now st).2 = SubmitResult.enterOne ∧
      (submit pid prid s a y now st).1.guesses = st.guesses) ∧
    (¬(pyStrip s = "" ∧ pyStrip a = "" ∧ pyStrip y = "") →
      (submit pid prid s a y now st).2 = SubmitResult.ok ∧
      (submit pid prid s a y now st).1.guesses =
        upsertGuess st.guesses oround.id pid
          (if pyStrip s = "" then none else some (pyStrip s))
          (if pyStrip a = "" then none else some (pyStrip a))
          (if pyStrip y = "" then none else parse_int (pyStrip y)) now) := by
  have hsub := submit_eval st pid prid s a y now oround hp hend hro hpost
  constructor
  · intro hf
    rw [hsub, if_pos hf]
    exact ⟨rfl, get_open_round_guesses now st⟩
  · intro hf
    rw [hsub, if_neg hf]
    refine ⟨rfl, ?_⟩
    show upsertGuess (get_open_round now st).1.guesses oround.id pid _ _ _ now = _
    rw [get_open_round_guesses now st]

theorem C2_validation_witness :
    (submit 1 "1" " " "  " "\t" 1 stGame).2 = SubmitResult.enterOne ∧
    (submit 1 "1" " " "  " "\t" 1 stGame).1.guesses = stGame.guesses ∧
    (submit 1 "1" "" "" "abc" 1 stGame).2 = SubmitResult.ok :=
  ⟨((C2_validation stGame 1 "1" " " "  " "\t" 1
      { id := 1, question := some "Song #1", status := RoundStatus.Open
        correct_song := none, correct_artist := none, correct_year := none
        created_at := 0, closed_at := none }
      (by decide) (by decide) (by decide) (by decide)).1 (by decide)).1,
   ((C2_validation stGame 1 "1" " " "  " "\t" 1
      { id := 1, question := some "Song #1", status := RoundStatus.Open
        correct_song := none, correct_artist := none, correct_year := none
        created_at := 0, closed_at := none }
      (by decide) (by decide) (by decide) (by decide)).1 (by decide)).2,
   ((C2_validation stGame 1 "1" "" "" "abc" 1
      { id := 1, question := some "Song #1", status := RoundStatus.Open
        correct_song := none, correct_artist := none, correct_year := none
        created_at := 0, closed_at := none }
      (by decide) (by decide) (by decide) (by decide)).2 (by decide)).1⟩

/-! ## Claim C5 -/

/-- When an open round is already present, `get_open_round` is a pure read. -/
theorem get_open_round_of_open {st : DBState} {oround : Round} (now : Nat)
    (ho : openRoundRow st = some oround) :
    get_open_round now st = (st, some oround) := by
  unfold get_open_round
  rw [ho]

/-- A successful `submit` pins down every check it passed. -/
theorem submit_ok_shape {st : DBState} {pid : Nat} {prid s a y : String} {now : Nat}
    (h : (submit pid prid s a y now st).2 = SubmitResult.ok) :
    ∃ oround, (get_open_round now st).2 = some oround ∧
      (st.players.find? (fun p => p.id = pid)).isNone = false ∧
      is_game_ended st = false ∧
      ¬(pyStrip prid = "" ∨ natToStr oround.id ≠ pyStrip prid) ∧
      ¬(pyStrip s = "" ∧ pyStrip a = "" ∧ pyStrip y = "") := by
  unfold submit at h
  simp only [] at h
  split at h
  · simp at h
  · rename_i hp0
    split at h
    · simp at h
    · rename_i hend0
      split at h
      · simp at h
      · rename_i oround heq
        split at h
        · simp at h
        · rename_i hpost0
          split at h
          · simp at h
          · rename_i hfields0
            exact ⟨oround, heq, by simpa using hp0, by simpa using hend0,
              hpost0, hfields0⟩

/-- The guess-field projection of a row, without the timestamps. -/
def stripT (g : Guess) :
    Nat × Nat × Option String × Option String × Option Int × Int × Int × Int × Int :=
  (g.round_id, g.player_id, g.guess_song, g.guess_artist, g.guess_year,
   g.points_year, g.points_song, g.points_artist, g.total_points)

/-- Re-upserting the same values changes nothing but `updated_at`. -/
theorem upsert_twice_stripT (G : List Guess) (rid pid : Nat)
    (song artist : Option String) (year : Option Int) (n1 n2 : Nat) :
    (upsertGuess (upsertGuess G rid pid song artist year n1) rid pid song artist year
      n2).map stripT = (upsertGuess G rid pid song artist year n1).map stripT := by
  unfold upsertGuess
  by_cases hany : G.any (guessKeyMatches rid pid) = true
  · rw [if_pos hany]
    have hany2 : (G.map (fun g => if guessKeyMatches rid pid g = true then
        { g with guess_song := song, guess_artist := artist, guess_year := year
                 updated_at := n1 } else g)).any (guessKeyMatches rid pid) = true := by
      rcases List.any_eq_true.mp hany with ⟨g, hg, hk⟩
      refine List.any_eq_true.mpr ⟨_, List.mem_map.mpr ⟨g, hg, rfl⟩, ?_⟩
      rw [if_pos hk]
      exact hk
    rw [if_pos hany2]
    simp only [List.map_map]
    apply List.map_congr_left
    intro g _
    simp only [Function.comp_apply]
    by_cases hk : guessKeyMatches rid pid g = true
    · simp only [if_pos hk]
      have h2 : guessKeyMatches rid pid
          { g with guess_song := song, guess_artist := artist, guess_year := year
                   updated_at := n1 } = true := hk
      simp only [if_pos h2]
      rfl
    · simp only [if_neg hk]
  · rw [if_neg hany]
    have hnone : ∀ g ∈ G, guessKeyMatches rid pid g = false := by
      intro g hg
      by_contra hne
      exact hany (List.any_eq_true.mpr ⟨g, hg, by simpa using hne⟩)
    have hnew : guessKeyMatches rid pid
        (Guess.mk rid pid song artist year 0 0 0 0 n1 n1) = true := by
      unfold guessKeyMatches
      simp
    have hany2 : (G ++ [Guess.mk rid pid song artist year 0 0 0 0 n1 n1]).any
        (guessKeyMatches rid pid) = true := by
      rw [List.any_append]
      simp [hnew]
    rw [if_pos hany2]
    simp only [List.map_append, List.map_map, List.map_cons, List.map_nil]
    congr 1
    · apply List.map_congr_left
      intro g hg
      simp only [Function.comp_apply, if_neg (by simp [hnone g hg] : ¬ guessKeyMatches
        rid pid g = true)]
    · simp only [if_pos hnew]
      rfl

/-- Upserting preserves the `(round_id, player_id)` uniqueness. -/
theorem upsertGuess_keys_nodup (G : List Guess) (rid pid : Nat)
    (song artist : Option String) (year : Option Int) (now : Nat)
    (hnd : (G.map (fun g => (g.round_id, g.player_id))).Nodup) :
    ((upsertGuess G rid pid song artist year now).map
      (fun g => (g.round_id, g.player_id))).Nodup := by
  unfold upsertGuess
  split
  · rw [map_id_of_preserve
      (fun g => if guessKeyMatches rid pid g = true then
        { g with guess_song := song, guess_artist := artist, guess_year := year
                 updated_at := now } else g)
      (fun g => (g.round_id, g.player_id))
      (fun g => by by_cases hk : guessKeyMatches rid pid g = true <;> simp [hk])]
    exact hnd
  · rename_i hany
    rw [List.map_append]
    refine List.Nodup.append hnd (by simp) ?_
    intro x hx hy
    simp only [List.map_cons, List.map_nil, List.mem_singleton] at hy
    subst hy
    rcases List.mem_map.mp hx with ⟨g0, hg0, hkey⟩
    have hk : guessKeyMatches rid pid g0 = false := by
      by_contra hne
      exact hany (List.any_eq_true.mpr ⟨g0, hg0, by simpa using hne⟩)
    unfold guessKeyMatches at hk
    simp only [Prod.mk.injEq] at hkey
    simp only [decide_eq_false_iff_not] at hk
    exact hk ⟨hkey.1, hkey.2⟩

theorem countP_key_nodup : ∀ (G : List Guess) (rid pid : Nat),
    ((G.map (fun g => (g.round_id, g.player_id))).Nodup) →
    G.countP (guessKeyMatches rid pid) ≤ 1 := by
  intro G
  induction G with
  | nil =>
    intro rid pid _
    simp [List.countP, List.countP.go]
  | cons g G ih =>
    intro rid pid hnd
    have hnd2 : (g.round_id, g.player_id) ∉ G.map (fun g => (g.round_id, g.player_id)) ∧
        (G.map (fun g => (g.round_id, g.player_id))).Nodup := by
      rw [List.map_cons, List.nodup_cons] at hnd
      exact hnd
    rw [List.countP_cons]
    by_cases hk : guessKeyMatches rid pid g = true
    · have hk' : g.round_id = rid ∧ g.player_id = pid := by
        unfold guessKeyMatches at hk
        simpa using hk
      have h0 : G.countP (guessKeyMatches rid pid) = 0 := by
        rw [List.countP_eq_zero]
        intro g2 hg2 hk2
        have hk2' : g2.round_id = rid ∧ g2.player_id = pid := by
          unfold guessKeyMatches at hk2
          simpa using hk2
        apply hnd2.1
        refine List.mem_map.mpr ⟨g2, hg2, ?_⟩
        rw [hk2'.1, hk2'.2, hk'.1, hk'.2]
      rw [h0]
      simp [hk]
    · have hk' : guessKeyMatches rid pid g = false := by simpa using hk
      rw [hk']
      simpa using ih rid pid hnd2.2

/-- After an upsert on a key-unique table, exactly one row carries the key. -/
theorem upsertGuess_count (G : List Guess) (rid pid : Nat)
    (song artist : Option String) (year : Option Int) (now : Nat)
    (hnd : (G.map (fun g => (g.round_id, g.player_id))).Nodup) :
    (upsertGuess G rid pid song artist year now).countP (guessKeyMatches rid pid) = 1 := by
  have hle := countP_key_nodup (upsertGuess G rid pid song artist year now) rid pid
    (upsertGuess_keys_nodup G rid pid song artist year now hnd)
  have hpos : 0 < (upsertGuess G rid pid song artist year now).countP
      (guessKeyMatches rid pid) := by
    rw [List.countP_pos_iff]
    unfold upsertGuess
    split
    · rename_i hany
      rcases List.any_eq_true.mp hany with ⟨g, hg, hk⟩
      refine ⟨_, List.mem_map.mpr ⟨g, hg, rfl⟩, ?_⟩
      rw [if_pos hk]
      exact hk
    · refine ⟨Guess.mk rid pid song artist year 0 0 0 0 now now, by simp, ?_⟩
      unfold guessKeyMatches
      simp
  omega

/-- The state a successful `submit` leaves behind. -/
def postSubmitState (st : DBState) (rid pid : Nat) (s a y : String) (now : Nat) : DBState :=
  { st with guesses := (upsertGuess st.guesses rid pid
      (if pyStrip s = "" then none else some (pyStrip s))
      (if pyStrip a = "" then none else some (pyStrip a))
      (if pyStrip y = "" then none else parse_int (pyStrip y)) now) }

theorem is_game_ended_congr {st1 st2 : DBState}
    (h : st1.settings.game_status = st2.settings.game_status) :
    is_game_ended st1 = is_game_ended st2 := by
  unfold is_game_ended game_status_val
  rw [h]

/-- Evaluation of `submit` on a state that already has an open round. -/
theorem submit_with_open {st : DBState} {oround : Round} {pid : Nat}
    {prid s a y : String} {now : Nat}
    (ho : openRoundRow st = some oround)
    (hp : (st.players.find? (fun p => p.id = pid)).isNone = false)
    (hend : is_game_ended st = false)
    (hpost : ¬(pyStrip prid = "" ∨ natToStr oround.id ≠ pyStrip prid))
    (hfields : ¬(pyStrip s = "" ∧ pyStrip a = "" ∧ pyStrip y = "")) :
    submit pid prid s a y now st =
      (postSubmitState st oround.id pid s a y now, SubmitResult.ok) := by
  have hro : (get_open_round now st).2 = some oround := by
    rw [get_open_round_of_open now ho]
  rw [submit_eval st pid prid s a y now oround hp hend hro hpost, if_neg hfields]
  rw [get_open_round_of_open now ho]
  rfl

/-- C5: submitting twice is idempotent.  The `(round_id, player_id)` key is
unique on every reachable state; after a successful submit, the identical
resubmission succeeds, changes no row except for `updated_at` of the
existing row (no duplicate insert), and exactly one row with the key
remains. -/
theorem C5_guess_upsert_idempotent :
    (∀ st, Reachable st → guessKeysNodup st) ∧
    (∀ st pid prid s a y now1 now2,
      (submit pid prid s a y now1 st).2 = SubmitResult.ok →
      (submit pid prid s a y now2 (submit pid prid s a y now1 st).1).2
          = SubmitResult.ok ∧
      ((submit pid prid s a y now2 (submit pid prid s a y now1 st).1).1.guesses.map
          stripT = (submit pid prid s a y now1 st).1.guesses.map stripT) ∧
      (guessKeysNodup st → ∀ oround, (get_open_round now1 st).2 = some oround →
        (submit pid prid s a y now2 (submit pid prid s a y now1 st).1).1.guesses.countP
          (guessKeyMatches oround.id pid) = 1)) := by
  refine ⟨fun st h => (reachable_inv h).gNd, ?_⟩
  intro st pid prid s a y now1 now2 hok1
  obtain ⟨oround, hro, hp0, hend0, hpost0, hfields0⟩ := submit_ok_shape hok1
  have heq1 : submit pid prid s a y now1 st =
      (postSubmitState (get_open_round now1 st).1 oround.id pid s a y now1,
       SubmitResult.ok) := by
    rw [submit_eval st pid prid s a y now1 oround hp0 hend0 hro hpost0,
      if_neg hfields0]
    rfl
  have ho1 : openRoundRow
      (postSubmitState (get_open_round now1 st).1 oround.id pid s a y now1)
        = some oround := by
    show openRoundRow (get_open_round now1 st).1 = some oround
    rw [← get_open_round_pair]
    exact hro
  have hp1 : ((postSubmitState (get_open_round now1 st).1 oround.id pid s a y
      now1).players.find? (fun p => p.id = pid)).isNone = false := by
    show ((get_open_round now1 st).1.players.find? (fun p => p.id = pid)).isNone = false
    rw [get_open_round_players]
    exact hp0
  have hend1 : is_game_ended
      (postSubmitState (get_open_round now1 st).1 oround.id pid s a y now1) = false := by
    refine (is_game_ended_congr ?_).trans hend0
    show (get_open_round now1 st).1.settings.game_status = st.settings.game_status
    exact get_open_round_game_status now1 st
  have h2 := @submit_with_open _ oround pid prid s a y now2 ho1 hp1 hend1 hpost0 hfields0
  rw [heq1]
  simp only []
  rw [h2]
  refine ⟨rfl, ?_, ?_⟩
  · show (upsertGuess (upsertGuess (get_open_round now1 st).1.guesses oround.id pid
        (if pyStrip s = "" then none else some (pyStrip s))
        (if pyStrip a = "" then none else some (pyStrip a))
        (if pyStrip y = "" then none else parse_int (pyStrip y)) now1) oround.id pid
        (if pyStrip s = "" then none else some (pyStrip s))
        (if pyStrip a = "" then none else some (pyStrip a))
        (if pyStrip y = "" then none else parse_int (pyStrip y)) now2).map stripT
      = (upsertGuess (get_open_round now1 st).1.guesses oround.id pid
        (if pyStrip s = "" then none else some (pyStrip s))
        (if pyStrip a = "" then none else some (pyStrip a))
        (if pyStrip y = "" then none else parse_int (pyStrip y)) now1).map stripT
    exact upsert_twice_stripT _ _ _ _ _ _ _ _
  · intro hknd oround2 hro2
    rw [hro] at hro2
    injection hro2 with hoo
    subst hoo
    show (upsertGuess (upsertGuess (get_open_round now1 st).1.guesses oround.id pid
        (if pyStrip s = "" then none else some (pyStrip s))
        (if pyStrip a = "" then none else some (pyStrip a))
        (if pyStrip y = "" then none else parse_int (pyStrip y)) now1) oround.id pid
        (if pyStrip s = "" then none else some (pyStrip s))
        (if pyStrip a = "" then none else some (pyStrip a))
        (if pyStrip y = "" then none else parse_int (pyStrip y)) now2).countP
        (guessKeyMatches oround.id pid) = 1
    apply upsertGuess_count
    apply upsertGuess_keys_nodup
    rw [get_open_round_guesses]
    unfold guessKeysNodup at hknd
    exact hknd

theorem C5_guess_upsert_idempotent_witness :
    guessKeysNodup stGame ∧
    (submit 1 "1" "x" "" "" 2 (submit 1 "1" "x" "" "" 1 stGame).1).2
        = SubmitResult.ok ∧
    ((submit 1 "1" "x" "" "" 2 (submit 1 "1" "x" "" "" 1 stGame).1).1.guesses.map stripT
      = (submit 1 "1" "x" "" "" 1 stGame).1.guesses.map stripT) :=
  ⟨C5_guess_upsert_idempotent.1 stGame stGame_reachable,
   (C5_guess_upsert_idempotent.2 stGame 1 "1" "x" "" "" 1 2 (by decide)).1,
   (C5_guess_upsert_idempotent.2 stGame 1 "1" "x" "" "" 1 2 (by decide)).2.1⟩

/-! ## Claim C10 -/

/-- C10: registering a name with an existing case-insensitive match creates
no Player row and reuses the matched player's id; a row is inserted only
when no case-insensitive match exists; hence player names stay unique up to
case on every reachable state. -/
theorem C10_register_nocase :
    (∀ st nm now, pyStrip nm ≠ "" →
      ((∃ p ∈ st.players, nocaseKey p.name = nocaseKey (pyStrip nm)) →
        (register nm now st).1 = st ∧
        ∃ q ∈ st.players, nocaseKey q.name = nocaseKey (pyStrip nm) ∧
          (register nm now st).2 = some q.id) ∧
      ((∀ p ∈ st.players, nocaseKey p.name ≠ nocaseKey (pyStrip nm)) →
        (register nm now st).1.players =
          st.players ++ [Player.mk st.next_player_id (pyStrip nm) now] ∧
        (register nm now st).2 = some st.next_player_id)) ∧
    (∀ st, Reachable st → namesNocaseNodup st) := by
  constructor
  · intro st nm now hne
    constructor
    · intro hex
      unfold register
      simp only []
      rw [if_neg hne]
      cases hf : st.players.find? (fun p => nocaseKey p.name = nocaseKey (pyStrip nm)) with
      | none =>
        exfalso
        rcases hex with ⟨p, hp, hkey⟩
        have := List.find?_eq_none.mp hf p hp
        exact this (by simpa using hkey)
      | some q =>
        refine ⟨rfl, q, List.mem_of_find?_eq_some hf, ?_, rfl⟩
        have := List.find?_some hf
        simpa using this
    · intro hnone
      unfold register
      simp only []
      rw [if_neg hne]
      have hf : st.players.find? (fun p => nocaseKey p.name = nocaseKey (pyStrip nm))
          = none := by
        rw [List.find?_eq_none]
        intro p hp
        simpa using hnone p hp
      rw [hf]
      exact ⟨rfl, rfl⟩
  · exact fun st h => (reachable_inv h).nmNd

theorem C10_register_nocase_witness :
    (register "ALICE " 5 stGame).1 = stGame ∧
    (register "Bob" 5 stGame).1.players =
      stGame.players ++ [Player.mk stGame.next_player_id "Bob" 5] ∧
    namesNocaseNodup stGame :=
  ⟨((C10_register_nocase.1 stGame "ALICE " 5 (by decide)).1
      ⟨Player.mk 1 "Alice" 0, by decide, by decide⟩).1,
   ((C10_register_nocase.1 stGame "Bob" 5 (by decide)).2 (by decide)).1,
   C10_register_nocase.2 stGame stGame_reachable⟩

end HitsterApp
